import Mathlib

/-!
Verification of the aa-accounting tax and ledger core.

The embedding below translates the ledger posting service (services.py,
models/accounting.py), the corporation tax-rate history resolver
(managers.py, models/taxes.py), and the tax aggregation engine
(models/taxes.py) into executable Lean definitions.

Modelling conventions:
* Python `Decimal` amounts are modelled as exact rationals (`ℚ`).  The Python
  decimal context rounds every operation to 28 significant digits; all facts
  proved below are insensitive to that rounding (the gaps involved are many
  orders of magnitude larger than the 28-digit rounding error, and the
  confirming computations are exact at well below 28 digits).
* Datetimes are modelled as integer timestamps (`Int`).
* Django querysets over a table are modelled as lists of row structures;
  `objects.create` appends, `F("balance") + amount` updates are in-place
  association-list updates.  Python dicts keyed by ids are insertion-ordered
  association lists.
* External collaborators (the auth user resolver, the clock, the live ESI
  corporation endpoint) are passed in as environment records.
-/

set_option maxRecDepth 40000

namespace Accounting

/-- The constant `LEDGER_ENTRY_TYPES` from models/accounting.py: the five recognized entry kinds. -/
def LEDGER_ENTRY_TYPES : List String := ["deposit", "tax", "fine", "adjustment", "charge"]

/-- A Django auth `User` as seen by the posting service: its primary key and
username (the username `"deleted"` is a sentinel for removed users). -/
structure PyUser where
  id : Nat
  username : String
deriving DecidableEq

/-- External collaborators of the ledger posting service:
`resolveUser` models `get_user_from_evecharacter` (returning `None` when the
character has no owning user), and `now` models `timezone.now()` /
`auto_now_add` at the moment of the call. -/
structure Env where
  resolveUser : Nat → Option PyUser
  now : Int

/-- The runtime type of the `target` argument of `post_ledger_entry`.
`other` stands for any value that is none of the three model classes
(the source does `isinstance` checks and raises `TypeError` otherwise). -/
inductive Target
  | user (userId : Nat)
  | character (characterId : Nat)
  | corporation (corporationId : Nat)
  | other
deriving DecidableEq

/-- A `UserLedgerEntry` row (models/accounting.py): signed `amount`, the
account `balance` snapshot after the entry was applied, and metadata. -/
structure UserLedgerEntry where
  userId : Nat
  amount : ℚ
  balance : ℚ
  description : String
  entry_type : String
  created : Int
  character : Option Nat
deriving DecidableEq

/-- A `CorpLedgerEntry` row (models/accounting.py). -/
structure CorpLedgerEntry where
  corpId : Nat
  amount : ℚ
  balance : ℚ
  description : String
  entry_type : String
  created : Int
  character : Option Nat
deriving DecidableEq

/-- An `UnclaimedTax` row (models/accounting.py): a charge that could not be
attributed to a user; `created` is `auto_now_add`. -/
structure UnclaimedTaxRec where
  character : Nat
  amount : ℚ
  description : String
  type : String
  created : Int
deriving DecidableEq

/-- Lookup in an insertion-ordered association list (a Python dict / a table
keyed by a unique column). -/
def alookup {κ β : Type} [DecidableEq κ] : List (κ × β) → κ → Option β
  | [], _ => none
  | (k, v) :: rest, key => if k = key then some v else alookup rest key

/-- Update the value under a key, appending at the end when the key is absent
(Python dict assignment keeps insertion order). -/
def aset {κ β : Type} [DecidableEq κ] : List (κ × β) → κ → β → List (κ × β)
  | [], key, v => [(key, v)]
  | (k, w) :: rest, key, v => if k = key then (k, v) :: rest else (k, w) :: aset rest key v

/-- The accounting database: `UserAccount` / `CorpAccount` balances keyed by
user / corporation id, the ledger entry tables and the unclaimed tax table. -/
structure DBState where
  userAccounts : List (Nat × ℚ)
  corpAccounts : List (Nat × ℚ)
  userEntries : List UserLedgerEntry
  corpEntries : List CorpLedgerEntry
  unclaimed : List UnclaimedTaxRec
deriving DecidableEq

/-- A database with no accounts, entries or unclaimed taxes. -/
def emptyDB : DBState := ⟨[], [], [], [], []⟩

/-- Model of `UserAccount.objects.get_or_create(user=...)`: new accounts start with
balance `0.00` (the model field default). -/
def getOrCreateUserAccount (st : DBState) (uid : Nat) : DBState :=
  match alookup st.userAccounts uid with
  | some _ => st
  | none => { st with userAccounts := st.userAccounts ++ [(uid, 0)] }

/-- Model of `CorpAccount.objects.get_or_create(corporation=...)`. -/
def getOrCreateCorpAccount (st : DBState) (cid : Nat) : DBState :=
  match alookup st.corpAccounts cid with
  | some _ => st
  | none => { st with corpAccounts := st.corpAccounts ++ [(cid, 0)] }

/-- Model of `UserAccount.add_ledger_entry` (models/accounting.py): create the entry
with `created = date if date is not None else timezone.now()`, atomically add
`amount` to the stored balance, and store the fresh balance on the entry. -/
def UserAccount.add_ledger_entry (env : Env) (st : DBState) (uid : Nat) (amount : ℚ)
    (description : String) (entry_type : String) (date : Option Int) (character : Option Nat) :
    DBState × UserLedgerEntry :=
  let created := date.getD env.now
  let newBalance := (alookup st.userAccounts uid).getD 0 + amount
  let entry : UserLedgerEntry :=
    { userId := uid, amount := amount, balance := newBalance, description := description,
      entry_type := entry_type, created := created, character := character }
  ({ st with userAccounts := aset st.userAccounts uid newBalance,
             userEntries := st.userEntries ++ [entry] }, entry)

/-- Model of `CorpAccount.add_ledger_entry` (models/accounting.py): same as the user
variant, except that the entry has no `date` parameter and its `created`
column is `auto_now_add`. -/
def CorpAccount.add_ledger_entry (env : Env) (st : DBState) (cid : Nat) (amount : ℚ)
    (description : String) (entry_type : String) (character : Option Nat) :
    DBState × CorpLedgerEntry :=
  let newBalance := (alookup st.corpAccounts cid).getD 0 + amount
  let entry : CorpLedgerEntry :=
    { corpId := cid, amount := amount, balance := newBalance, description := description,
      entry_type := entry_type, created := env.now, character := character }
  ({ st with corpAccounts := aset st.corpAccounts cid newBalance,
             corpEntries := st.corpEntries ++ [entry] }, entry)

/-- The record returned by a successful `post_ledger_entry` call. -/
inductive PostedRecord
  | userEntry (e : UserLedgerEntry)
  | corpEntry (e : CorpLedgerEntry)
  | unclaimedTax (u : UnclaimedTaxRec)
deriving DecidableEq

/-- The exceptions `post_ledger_entry` raises. -/
inductive PostError
  | valueError (msg : String)
  | typeError (msg : String)
deriving DecidableEq

/-- The sign rule of services.py: a `deposit` keeps the positive amount, every
other entry kind is stored negated. -/
def signedAmount (entry_type : String) (amount : ℚ) : ℚ :=
  if entry_type = "deposit" then amount else -amount

/-- Model of `post_ledger_entry` (services.py).  The `date` argument is reassigned
inside the non-deposit branch (`date = date or timezone.now()`) but never
used afterwards and never forwarded to `add_ledger_entry`, so it is dead;
the embedding keeps the parameter to mirror the signature. -/
def post_ledger_entry (env : Env) (st : DBState) (target : Target) (amount : ℚ)
    (description : String) (entry_type : String) (date : Option Int) :
    Except PostError (DBState × PostedRecord) :=
  if entry_type ∉ LEDGER_ENTRY_TYPES then
    .error (.valueError "Invalid entry_type")
  else if amount ≤ 0 then
    .error (.valueError "Amount must be entered as a positive number")
  else
    let ledger_amount := signedAmount entry_type amount
    match target with
    | .user uid =>
      let st1 := getOrCreateUserAccount st uid
      let p := UserAccount.add_ledger_entry env st1 uid ledger_amount description entry_type none none
      .ok (p.1, .userEntry p.2)
    | .character chId =>
      let unclaimedResult : Except PostError (DBState × PostedRecord) :=
        let u : UnclaimedTaxRec :=
          { character := chId, amount := ledger_amount, description := description,
            type := entry_type, created := env.now }
        .ok ({ st with unclaimed := st.unclaimed ++ [u] }, .unclaimedTax u)
      match env.resolveUser chId with
      | none => unclaimedResult
      | some u =>
        if u.username = "deleted" then unclaimedResult
        else
          let st1 := getOrCreateUserAccount st u.id
          let p := UserAccount.add_ledger_entry env st1 u.id ledger_amount description entry_type none (some chId)
          .ok (p.1, .userEntry p.2)
    | .corporation cid =>
      let st1 := getOrCreateCorpAccount st cid
      let p := CorpAccount.add_ledger_entry env st1 cid ledger_amount description entry_type none
      .ok (p.1, .corpEntry p.2)
    | .other =>
      .error (.typeError "Target must be a User, EveCharacter or EveCorporationInfo")

/-- One call of `post_ledger_entry`, with the positional arguments bundled. -/
structure PostRequest where
  target : Target
  amount : ℚ
  description : String
  entry_type : String
  date : Option Int
deriving DecidableEq

/-- Run one posting against the database: a raised exception leaves the
database untouched (the service validates before creating anything). -/
def applyPost (env : Env) (st : DBState) (r : PostRequest) : DBState :=
  match post_ledger_entry env st r.target r.amount r.description r.entry_type r.date with
  | .ok (st2, _) => st2
  | .error _ => st

/-- Run a sequence of postings. -/
def postMany (env : Env) (st : DBState) (rs : List PostRequest) : DBState :=
  rs.foldl (applyPost env) st

/-- The stored balance of a user account (0 when the account does not exist). -/
def userBalance (st : DBState) (uid : Nat) : ℚ := (alookup st.userAccounts uid).getD 0

/-- The stored balance of a corporation account. -/
def corpBalance (st : DBState) (cid : Nat) : ℚ := (alookup st.corpAccounts cid).getD 0

/-- The sum of the signed amounts of all ledger entries of one user account. -/
def userEntrySum (st : DBState) (uid : Nat) : ℚ :=
  ((st.userEntries.filter (fun e => e.userId = uid)).map (fun e => e.amount)).sum

/-- The sum of the signed amounts of all ledger entries of one corporation account. -/
def corpEntrySum (st : DBState) (cid : Nat) : ℚ :=
  ((st.corpEntries.filter (fun e => e.corpId = cid)).map (fun e => e.amount)).sum

/-- The net balance change a posting request causes on the account of user `uid`:
zero when validation fails, when the request targets someone else, or when the
charge lands in the unclaimed-tax table. -/
def reqDeltaUser (env : Env) (uid : Nat) (r : PostRequest) : ℚ :=
  if r.entry_type ∈ LEDGER_ENTRY_TYPES ∧ 0 < r.amount then
    match r.target with
    | .user u => if u = uid then signedAmount r.entry_type r.amount else 0
    | .character ch =>
      match env.resolveUser ch with
      | none => 0
      | some usr =>
        if usr.username = "deleted" then 0
        else if usr.id = uid then signedAmount r.entry_type r.amount else 0
    | .corporation _ => 0
    | .other => 0
  else 0

/-- The net balance change a posting request causes on the account of corporation `cid`. -/
def reqDeltaCorp (cid : Nat) (r : PostRequest) : ℚ :=
  if r.entry_type ∈ LEDGER_ENTRY_TYPES ∧ 0 < r.amount then
    match r.target with
    | .corporation c => if c = cid then signedAmount r.entry_type r.amount else 0
    | _ => 0
  else 0

/-- The epoch timestamp of `datetime.min` (UTC): the `MIN_DATE` constant of models/taxes.py. -/
def MIN_DATE : Int := -62135596800

/-- The epoch timestamp of `datetime.max` (UTC): the `MAX_DATE` constant of models/taxes.py. -/
def MAX_DATE : Int := 253402300799

/-- One `(start_date, tax_rate)` record as handled by `CorpTaxHistory.get_tax_rate`. -/
structure TaxRateEntry where
  start_date : Int
  tax_rate : ℚ
deriving DecidableEq

/-- A `CorpTaxHistory` table row; `(corp_id, start_date)` is unique_together. -/
structure CorpTaxHistoryRow where
  corp_id : Nat
  start_date : Int
  tax_rate : ℚ
deriving DecidableEq

/-- The ordering used both by `order_by("start_date")` and by
`tax_rates.sort(key=lambda i: i["start_date"])`. -/
def rateLE (a b : TaxRateEntry) : Prop := a.start_date ≤ b.start_date

instance : DecidableRel rateLE := fun a b => inferInstanceAs (Decidable (a.start_date ≤ b.start_date))

instance : IsTotal TaxRateEntry rateLE := ⟨fun a b => Int.le_total a.start_date b.start_date⟩

instance : IsTrans TaxRateEntry rateLE := ⟨fun _ _ _ h1 h2 => le_trans h1 h2⟩

/-- Model of `CorpTaxHistoryManager.get_corp_tax_list` (managers.py): the stored
`(start_date, tax_rate)` records of one corporation, ordered by `start_date`
(unique_together on `(corp, start_date)` makes the order well defined). -/
def get_corp_tax_list (db : List CorpTaxHistoryRow) (corp_id : Nat) : List TaxRateEntry :=
  List.insertionSort rateLE
    ((db.filter (fun r => r.corp_id = corp_id)).map (fun r => ⟨r.start_date, r.tax_rate⟩))

/-- The walk of `CorpTaxHistory.get_tax_rate`:
`for tr in tax_rates: if tr["start_date"] < date: rate = tr["tax_rate"] else: break`. -/
def walkRates : List TaxRateEntry → Int → ℚ → ℚ
  | [], _, rate => rate
  | tr :: rest, date, rate =>
    if tr.start_date < date then walkRates rest date tr.tax_rate else rate

/-- Model of `CorpTaxHistory.get_tax_rate` (models/taxes.py).  `if not tax_rates:` is
Python truthiness, so both `None` and an empty provided list fall back to the
stored history of `corp_id`; the (possibly fetched) list is then sorted by
`start_date` and walked with `default` as the initial rate. -/
def CorpTaxHistory.get_tax_rate (db : List CorpTaxHistoryRow) (corp_id : Nat) (date : Int)
    (tax_rates : Option (List TaxRateEntry)) (default : ℚ) : ℚ :=
  let rates :=
    match tax_rates with
    | none => get_corp_tax_list db corp_id
    | some l => if l.isEmpty then get_corp_tax_list db corp_id else l
  walkRates (List.insertionSort rateLE rates) date default

/-! ### Wallet journal rows, processed-marker schema and transaction fetches -/

/-- Reverse query names usable in filters on the corptools model
`CharacterWalletJournalEntry`, as declared by the marker model of this app,
`CharacterPayoutTaxRecord` (`related_name="character_payout_tax_record"`, no
`related_query_name`, so the query name equals the related name). -/
def characterWalletJournalReverseNames : List String := ["character_payout_tax_record"]

/-- Reverse query names usable in filters on the corptools model
`CorporationWalletJournalEntry`, as declared by the marker model of this app,
`CorporatePayoutTaxRecord` (`related_query_name="corp_taxed"`). -/
def corporationWalletJournalReverseNames : List String := ["corp_taxed"]

/-- A `CharacterWalletJournalEntry` row together with the related character
columns that the aggregators select: `id` is the table primary key, `entry_id`
the unique in-game journal id, `tax` the in-game tax sub-amount (nullable),
`main` / `main_corp` / `main_alliance` the main character data of the owning user
(null for unlinked characters). -/
structure CharJournalRow where
  id : Nat
  entry_id : Nat
  date : Int
  ref_type : String
  amount : ℚ
  tax : Option ℚ
  context_id : Option Nat
  tax_receiver_id : Option Nat
  char : Nat
  corp : Nat
  char_name : String
  main : Option Nat
  main_corp : Option Nat
  main_alliance : Option Nat
deriving DecidableEq

/-- The journal-side database: character journal rows, the
`CharacterPayoutTaxRecord` markers (journal pk ↦ processed flag) and the
system ↦ region map used by region filters. -/
structure JournalDB where
  charJournal : List CharJournalRow
  charMarkers : List (Nat × Bool)
  systemRegions : List (Nat × Nat)
deriving DecidableEq

/-- A Django `FieldError`: a filter lookup that does not resolve to any field
or relation of the model. -/
inductive QueryError
  | fieldError (lookup : String)
deriving DecidableEq

/-- The model `CharacterRattingTaxConfiguration` (models/taxes.py): rule name, tax
percentage, the include-ESS flag and a region filter (list of region ids). -/
structure CharacterRattingTaxConfiguration where
  name : String
  tax : ℚ
  include_ess_section : Bool
  region_filter : List Nat
deriving DecidableEq

/-- Model of `CharacterRattingTaxConfiguration.get_payment_data` (models/taxes.py):
filter `bounty_prizes` rows inside `[start_date, end_date]`, optionally by
alliance of the owning main and by region, then
`.exclude(taxed__processed=True)`.  The final exclude names the lookup
`taxed`, which Django resolves against the declared reverse names of
`CharacterWalletJournalEntry`; an unresolvable lookup raises `FieldError`. -/
def CharacterRattingTaxConfiguration.get_payment_data
    (cfg : CharacterRattingTaxConfiguration) (db : JournalDB)
    (start_date end_date : Int) (alliance_filter : Option (List Nat)) :
    Except QueryError (List CharJournalRow) :=
  let q := db.charJournal.filter
    (fun e => decide (start_date ≤ e.date ∧ e.date ≤ end_date ∧ e.ref_type ∈ ["bounty_prizes"]))
  let q :=
    match alliance_filter with
    | none => q
    | some af => q.filter (fun e => (e.main_alliance.map (fun a => decide (a ∈ af))).getD false)
  let q :=
    if cfg.region_filter.isEmpty then q
    else q.filter (fun e =>
      (e.context_id.map
        (fun s => decide (∃ p ∈ db.systemRegions, p.1 = s ∧ p.2 ∈ cfg.region_filter))).getD false)
  if "taxed" ∈ characterWalletJournalReverseNames then
    .ok (q.filter (fun e => !(decide (∃ m ∈ db.charMarkers, m.1 = e.id ∧ m.2 = true))))
  else
    .error (.fieldError "taxed")

/-! ### Aggregation: shared pieces -/

/-- Python truthiness of an optional number: `None` and `0` are falsy. -/
def pyTruthyQ : Option ℚ → Bool
  | none => false
  | some v => decide (v ≠ 0)

/-- Python truthiness of an optional id. -/
def pyTruthyNat : Option Nat → Bool
  | none => false
  | some n => decide (n ≠ 0)

/-- Model of `cid = d["char"]; if d["main"]: cid = d["main"]` — aggregate under the
main character when one is linked (and truthy). -/
def mainOr (main : Option Nat) (char : Nat) : Nat :=
  if pyTruthyNat main then main.getD char else char

/-- The per-character aggregate dict built by both character-level
aggregators (`characters`, owning `corp` = the corporation of the main,
`trans_ids`, `tax_rates_used`, numeric totals, and the first/last
transaction timestamps seeded with `MAX_DATE` / `MIN_DATE`). -/
structure CharAgg where
  characters : List String
  corp : Option Nat
  trans_ids : List Nat
  tax_rates_used : List ℚ
  sum_earn : ℚ
  pre_tax_total : ℚ
  tax_to_pay : ℚ
  cnt : Nat
  «end» : Int
  start : Int
deriving DecidableEq

/-- The zero-initialised per-character aggregate. -/
def initCharAgg (main_corp : Option Nat) : CharAgg :=
  { characters := [], corp := main_corp, trans_ids := [], tax_rates_used := [],
    sum_earn := 0, pre_tax_total := 0, tax_to_pay := 0, cnt := 0,
    «end» := MIN_DATE, start := MAX_DATE }

/-- The live-ESI environment of the payout aggregators: `esiRate c` is
`corp_details.tax_rate` returned by `GetCorporationsCorporationId` for
corporation `c` (an in-game fraction, multiplied by 100 for the default). -/
structure TaxEnv where
  esiRate : Nat → ℚ

/-! ### Character-wallet payout tax (`CharacterPayoutTaxConfiguration`) -/

/-- The model `CharacterPayoutTaxConfiguration` (models/taxes.py): optional source
corporation filter, comma list of transaction types, tax percentage. -/
structure CharacterPayoutTaxConfiguration where
  name : String
  corporation : Option Nat
  wallet_transaction_type : String
  tax : ℚ
deriving DecidableEq

/-- The row shape produced by
the `.values(...)` call of `CharacterPayoutTaxConfiguration.get_character_aggregates`. -/
structure CharPayoutRow where
  amount : ℚ
  entry_id : Nat
  date : Int
  tax : Option ℚ
  char : Nat
  corp : Nat
  char_name : String
  main : Option Nat
  main_corp : Option Nat
deriving DecidableEq

/-- The `.values(...)` projection of `get_character_aggregates`. -/
def CharacterPayoutTaxConfiguration.values (e : CharJournalRow) : CharPayoutRow :=
  { amount := e.amount, entry_id := e.entry_id, date := e.date, tax := e.tax,
    char := e.char, corp := e.corp, char_name := e.char_name,
    main := e.main, main_corp := e.main_corp }

/-- Run state of `CharacterPayoutTaxConfiguration.process_character_aggregates`.
Besides the source-visible `output`, `tax_cache`, `trans_ids` and
`bad_transactions`, the state records the corporation id of every live ESI
lookup performed (`esiLog`: the unconditional `GetCorporationsCorporationId`
call in the loop body) and of every rate-history DB fetch (`dbLog`: the
`if crpid not in tax_cache` branch), so resource claims can be stated. -/
structure CharPayoutRunState where
  output : List (Nat × CharAgg)
  tax_cache : List (Nat × List TaxRateEntry)
  trans_ids : List Nat
  bad_transactions : List Nat
  esiLog : List Nat
  dbLog : List Nat
deriving DecidableEq

/-- The empty run state. -/
def initCharPayoutRun : CharPayoutRunState := ⟨[], [], [], [], [], []⟩

/-- Body of the `for d in data` loop of
`CharacterPayoutTaxConfiguration.process_character_aggregates`
(models/taxes.py lines 331-409), one transaction row at a time.  The
`try` computes `amount / (100 - rate) * 100`; at `rate = 100` the decimal
division raises and the handler falls back to the own `tax` field of the transaction
field when truthy, else records a bad transaction and continues (note that
the id of a bad transaction is not added to the seen set). -/
def CharacterPayoutTaxConfiguration.step (cfg : CharacterPayoutTaxConfiguration)
    (env : TaxEnv) (db : List CorpTaxHistoryRow)
    (s : CharPayoutRunState) (d : CharPayoutRow) : CharPayoutRunState :=
  if d.entry_id ∈ s.trans_ids then s
  else
    let cid := mainOr d.main d.char
    let crpid := d.corp
    let cached := alookup s.tax_cache crpid
    let tax_cache :=
      match cached with
      | some _ => s.tax_cache
      | none => aset s.tax_cache crpid (get_corp_tax_list db crpid)
    let dbLog :=
      match cached with
      | some _ => s.dbLog
      | none => s.dbLog ++ [crpid]
    let esiLog := s.esiLog ++ [crpid]
    let current_rate := env.esiRate crpid
    let rate := CorpTaxHistory.get_tax_rate db cid d.date
      (some ((alookup tax_cache crpid).getD [])) (current_rate * 100)
    let output :=
      match alookup s.output cid with
      | some _ => s.output
      | none => aset s.output cid (initCharAgg d.main_corp)
    let total_value? : Option ℚ :=
      if rate = 100 then (if pyTruthyQ d.tax then some (d.tax.getD 0) else none)
      else some (d.amount / (100 - rate) * 100)
    match total_value? with
    | none =>
      { s with output := output, tax_cache := tax_cache, dbLog := dbLog, esiLog := esiLog,
               bad_transactions := s.bad_transactions ++ [d.entry_id] }
    | some total_value =>
      let a := (alookup output cid).getD (initCharAgg d.main_corp)
      let a2 :=
        { a with
          sum_earn := a.sum_earn + d.amount,
          pre_tax_total := a.pre_tax_total + total_value,
          tax_to_pay := a.tax_to_pay + total_value * (cfg.tax / 100),
          cnt := a.cnt + 1,
          trans_ids := a.trans_ids ++ [d.entry_id],
          tax_rates_used :=
            if rate ∈ a.tax_rates_used then a.tax_rates_used else a.tax_rates_used ++ [rate],
          characters :=
            if d.char_name ∈ a.characters then a.characters else a.characters ++ [d.char_name],
          start := if d.date < a.start then d.date else a.start,
          «end» := if d.date > a.«end» then d.date else a.«end» }
      { s with output := aset output cid a2, tax_cache := tax_cache, dbLog := dbLog,
               esiLog := esiLog, trans_ids := s.trans_ids ++ [d.entry_id] }

/-- Model of `CharacterPayoutTaxConfiguration.process_character_aggregates` over a list
of already-fetched `.values()` rows. -/
def CharacterPayoutTaxConfiguration.process_character_aggregates
    (cfg : CharacterPayoutTaxConfiguration) (env : TaxEnv)
    (db : List CorpTaxHistoryRow) (data : List CharPayoutRow) : CharPayoutRunState :=
  data.foldl (CharacterPayoutTaxConfiguration.step cfg env db) initCharPayoutRun

/-! ### Corporation-wallet payout tax (`CorpTaxPayoutTaxConfiguration`) -/

/-- The model `CorpTaxPayoutTaxConfiguration` (models/taxes.py). -/
structure CorpTaxPayoutTaxConfiguration where
  name : String
  corporation : Option Nat
  wallet_transaction_type : String
  tax : ℚ
deriving DecidableEq

/-- A fetched `CorporationWalletJournalEntry` with the related columns the
corp aggregator reads: the receiving corporation
(`w.division.corporation.corporation.corporation_id`) and the second party
name. -/
structure CorpPayoutRow where
  entry_id : Nat
  date : Int
  amount : ℚ
  division_corporation_id : Nat
  second_party_name : String
deriving DecidableEq

/-- The per-corporation aggregate dict of `get_aggregates`; unlike the
character variants it also stores the `tax_rates` history of the corporation. -/
structure CorpPayoutAgg where
  characters : List String
  trans_ids : List Nat
  tax_rates_used : List ℚ
  tax_rates : List TaxRateEntry
  sum_earn : ℚ
  pre_tax_total : ℚ
  tax_to_pay : ℚ
  cnt : Nat
  «end» : Int
  start : Int
deriving DecidableEq

/-- Run state of `CorpTaxPayoutTaxConfiguration.get_aggregates`, with the
same ESI / history-fetch logs as the character variant. -/
structure CorpPayoutRunState where
  output : List (Nat × CorpPayoutAgg)
  tax_cache : List (Nat × List TaxRateEntry)
  trans_ids : List Nat
  esiLog : List Nat
  dbLog : List Nat
deriving DecidableEq

/-- The empty corp run state. -/
def initCorpPayoutRun : CorpPayoutRunState := ⟨[], [], [], [], []⟩

/-- Body of the `for w in self.get_payment_data(...)` loop of
`CorpTaxPayoutTaxConfiguration.get_aggregates` (models/taxes.py lines
583-646).  The pre-tax value here is `w.amount / (rate / 100)` when
`rate > 0`, and the raw `w.amount` otherwise; there is no division-by-zero
fallback path because the guard avoids the division. -/
def CorpTaxPayoutTaxConfiguration.step (cfg : CorpTaxPayoutTaxConfiguration)
    (env : TaxEnv) (db : List CorpTaxHistoryRow) (full : Bool)
    (s : CorpPayoutRunState) (w : CorpPayoutRow) : CorpPayoutRunState :=
  if w.entry_id ∈ s.trans_ids then s
  else
    let cid := w.division_corporation_id
    let cached := alookup s.tax_cache cid
    let tax_cache :=
      match cached with
      | some _ => s.tax_cache
      | none => aset s.tax_cache cid (get_corp_tax_list db cid)
    let dbLog :=
      match cached with
      | some _ => s.dbLog
      | none => s.dbLog ++ [cid]
    let esiLog := s.esiLog ++ [cid]
    let current_rate := env.esiRate cid
    let cachedList := (alookup tax_cache cid).getD []
    let rate := CorpTaxHistory.get_tax_rate db cid w.date (some cachedList) (current_rate * 100)
    let trans_ids := s.trans_ids ++ [w.entry_id]
    let output :=
      match alookup s.output cid with
      | some _ => s.output
      | none => aset s.output cid
          { characters := [], trans_ids := [], tax_rates_used := [], tax_rates := cachedList,
            sum_earn := 0, pre_tax_total := 0, tax_to_pay := 0, cnt := 0,
            «end» := MIN_DATE, start := MAX_DATE }
    let total_value := if 0 < rate then w.amount / (rate / 100) else w.amount
    let a := (alookup output cid).getD
      { characters := [], trans_ids := [], tax_rates_used := [], tax_rates := cachedList,
        sum_earn := 0, pre_tax_total := 0, tax_to_pay := 0, cnt := 0,
        «end» := MIN_DATE, start := MAX_DATE }
    let a2 :=
      { a with
        sum_earn := a.sum_earn + w.amount,
        pre_tax_total := a.pre_tax_total + total_value,
        tax_to_pay := a.tax_to_pay + total_value * (cfg.tax / 100),
        cnt := a.cnt + 1,
        trans_ids := if full then a.trans_ids ++ [w.entry_id] else a.trans_ids,
        tax_rates_used :=
          if rate ∈ a.tax_rates_used then a.tax_rates_used else a.tax_rates_used ++ [rate],
        characters :=
          if w.second_party_name ∈ a.characters then a.characters
          else a.characters ++ [w.second_party_name],
        start := if w.date < a.start then w.date else a.start,
        «end» := if w.date > a.«end» then w.date else a.«end» }
    { output := aset output cid a2, tax_cache := tax_cache, trans_ids := trans_ids,
      esiLog := esiLog, dbLog := dbLog }

/-- The aggregation loop of `CorpTaxPayoutTaxConfiguration.get_aggregates`
over the fetched journal rows (the fetch itself, `get_payment_data`, is
modelled separately: see the processed-marker schema above). -/
def CorpTaxPayoutTaxConfiguration.process_aggregates (cfg : CorpTaxPayoutTaxConfiguration)
    (env : TaxEnv) (db : List CorpTaxHistoryRow) (full : Bool)
    (data : List CorpPayoutRow) : CorpPayoutRunState :=
  data.foldl (CorpTaxPayoutTaxConfiguration.step cfg env db full) initCorpPayoutRun

/-! ### Character ratting tax (`CharacterRattingTaxConfiguration`) -/

/-- The exact rational value of Python `Decimal(0.95)`: converting the float
literal `0.95` yields the binary64 number `8556839292003942 / 2 ^ 53`,
slightly below `19 / 20`. -/
def DEC095 : ℚ := 8556839292003942 / 9007199254740992

/-- The row shape produced by
the `.values(...)` call of ratting `get_character_aggregates`:
`total_ratted = (Coalesce(amount, 0) + Coalesce(tax, 0)) / 0.6` and
`ess_cut = total_ratted * 0.35`, computed by the database in decimal
arithmetic (modelled exactly: `0.6 = 3/5`, `0.35 = 7/20`); they are optional
here because the processing loop guards them with `try/except`. -/
structure RattingRow where
  amount : ℚ
  tax : Option ℚ
  tax_receiver_id : Option Nat
  entry_id : Nat
  date : Int
  char : Nat
  corp : Nat
  char_name : String
  total_ratted : Option ℚ
  ess_cut : Option ℚ
  main : Option Nat
  main_corp : Option Nat
deriving DecidableEq

/-- The `.values(...)` projection of ratting `get_character_aggregates`. -/
def CharacterRattingTaxConfiguration.values (e : CharJournalRow) : RattingRow :=
  { amount := e.amount, tax := e.tax, tax_receiver_id := e.tax_receiver_id,
    entry_id := e.entry_id, date := e.date, char := e.char, corp := e.corp,
    char_name := e.char_name,
    total_ratted := some ((e.amount + e.tax.getD 0) / (3 / 5)),
    ess_cut := some ((e.amount + e.tax.getD 0) / (3 / 5) * (7 / 20)),
    main := e.main, main_corp := e.main_corp }

/-- Run state of `CharacterRattingTaxConfiguration.process_character_aggregates`. -/
structure RattingRunState where
  output : List (Nat × CharAgg)
  trans_ids : List Nat
  bad_transactions : List Nat
deriving DecidableEq

/-- The empty ratting run state. -/
def initRattingRun : RattingRunState := ⟨[], [], []⟩

/-- Body of the `for d in data` loop of ratting
`process_character_aggregates` (models/taxes.py lines 149-206): the `try`
computes `total_value = total_ratted * Decimal(0.95)` and, when the
configuration excludes the ESS section, subtracts `ess_cut`; a `None` field
raises and the handler records a bad transaction and continues. -/
def CharacterRattingTaxConfiguration.step (cfg : CharacterRattingTaxConfiguration)
    (s : RattingRunState) (d : RattingRow) : RattingRunState :=
  if d.entry_id ∈ s.trans_ids then s
  else
    let cid := mainOr d.main d.char
    let output :=
      match alookup s.output cid with
      | some _ => s.output
      | none => aset s.output cid (initCharAgg d.main_corp)
    let total_value? : Option ℚ :=
      match d.total_ratted with
      | none => none
      | some t =>
        let tv := t * DEC095
        if cfg.include_ess_section then some tv
        else
          match d.ess_cut with
          | none => none
          | some e => some (tv - e)
    match total_value? with
    | none =>
      { s with output := output, bad_transactions := s.bad_transactions ++ [d.entry_id] }
    | some total_value =>
      let a := (alookup output cid).getD (initCharAgg d.main_corp)
      let a2 :=
        { a with
          sum_earn := a.sum_earn + d.amount,
          pre_tax_total := a.pre_tax_total + total_value,
          tax_to_pay := a.tax_to_pay + total_value * (cfg.tax / 100),
          cnt := a.cnt + 1,
          trans_ids := a.trans_ids ++ [d.entry_id],
          characters :=
            if d.char_name ∈ a.characters then a.characters else a.characters ++ [d.char_name],
          start := if d.date < a.start then d.date else a.start,
          «end» := if d.date > a.«end» then d.date else a.«end» }
      { s with output := aset output cid a2, trans_ids := s.trans_ids ++ [d.entry_id] }

/-- Model of `CharacterRattingTaxConfiguration.process_character_aggregates` over a
list of already-fetched `.values()` rows. -/
def CharacterRattingTaxConfiguration.process_character_aggregates
    (cfg : CharacterRattingTaxConfiguration) (data : List RattingRow) : RattingRunState :=
  data.foldl (CharacterRattingTaxConfiguration.step cfg) initRattingRun

/-! ### Roll-up to corporation level -/

/-- The per-corporation aggregate dict built by both
`process_character_aggregates_corp_level` copies. -/
structure CorpAgg where
  characters : List String
  trans_ids : List Nat
  tax_rates_used : List ℚ
  sum_earn : ℚ
  pre_tax_total : ℚ
  tax_to_pay : ℚ
  cnt : Nat
  «end» : Int
  start : Int
deriving DecidableEq

/-- The zero-initialised per-corporation aggregate. -/
def initCorpAgg : CorpAgg :=
  { characters := [], trans_ids := [], tax_rates_used := [],
    sum_earn := 0, pre_tax_total := 0, tax_to_pay := 0, cnt := 0,
    «end» := MIN_DATE, start := MAX_DATE }

/-- The shared body of both corp-level roll-ups (the two copies in
models/taxes.py are textually identical): group the per-character aggregates
by their owning corporation (`None` for characters without a linked main),
concatenate the character lists (and, when `full`, the transaction-id lists),
deduplicate the rates-used lists, sum the numeric fields, and update the
window edges.  NOTE: the final update follows the source exactly — when
`t["end"] > output[cid]["end"]` the source assigns `t["start"]`, not
`t["end"]`. -/
def rollupStep (full : Bool) (output : List (Option Nat × CorpAgg)) (p : Nat × CharAgg) :
    List (Option Nat × CorpAgg) :=
  let t := p.2
  let cid := t.corp
  let output :=
    match alookup output cid with
    | some _ => output
    | none => aset output cid initCorpAgg
  let a := (alookup output cid).getD initCorpAgg
  let a2 :=
    { a with
      characters := a.characters ++ t.characters,
      trans_ids := if full then a.trans_ids ++ t.trans_ids else a.trans_ids,
      tax_rates_used :=
        t.tax_rates_used.foldl (fun acc tr => if tr ∈ acc then acc else acc ++ [tr])
          a.tax_rates_used,
      sum_earn := a.sum_earn + t.sum_earn,
      pre_tax_total := a.pre_tax_total + t.pre_tax_total,
      tax_to_pay := a.tax_to_pay + t.tax_to_pay,
      cnt := a.cnt + t.cnt,
      start := if t.start < a.start then t.start else a.start,
      «end» := if t.«end» > a.«end» then t.start else a.«end» }
  aset output cid a2

/-- Model of `CharacterRattingTaxConfiguration.process_character_aggregates_corp_level`
(models/taxes.py lines 237-268). -/
def CharacterRattingTaxConfiguration.process_character_aggregates_corp_level
    (data : List (Nat × CharAgg)) (full : Bool) : List (Option Nat × CorpAgg) :=
  data.foldl (rollupStep full) []

/-- Model of `CharacterPayoutTaxConfiguration.process_character_aggregates_corp_level`
(models/taxes.py lines 432-464, textually the same merge). -/
def CharacterPayoutTaxConfiguration.process_character_aggregates_corp_level
    (data : List (Nat × CharAgg)) (full : Bool) : List (Option Nat × CorpAgg) :=
  data.foldl (rollupStep full) []

/-! ### Concrete data used in examples, counterexamples and witnesses -/

/-- The `created` column of whichever record a posting produced. -/
def recordCreated : PostedRecord → Int
  | .userEntry e => e.created
  | .corpEntry e => e.created
  | .unclaimedTax u => u.created

/-- Whether a `post_ledger_entry` call raised (ValueError / TypeError). -/
def raisedError : Except PostError (DBState × PostedRecord) → Bool
  | .error _ => true
  | .ok _ => false

/-- The lookup name of the `FieldError` a transaction fetch raised, if any. -/
def queryRaisedFieldError : Except QueryError (List CharJournalRow) → Option String
  | .error (.fieldError s) => some s
  | .ok _ => none

/-- An environment in which no character resolves to a user; clock at 0. -/
def envNoUsers : Env := ⟨fun _ => none, 0⟩

/-- The ledger example from the spec: deposit 100, then tax 30, on user 1. -/
def c2example : List PostRequest :=
  [⟨.user 1, 100, "payment", "deposit", none⟩, ⟨.user 1, 30, "monthly tax", "tax", none⟩]

/-- One per-character aggregate group with `start = 10` and `end = 20`,
owned by corporation 7. -/
def c5group : CharAgg :=
  { characters := ["A"], corp := some 7, trans_ids := [11], tax_rates_used := [5],
    sum_earn := 100, pre_tax_total := 200, tax_to_pay := 10, cnt := 1,
    «end» := 20, start := 10 }

/-- A live ESI endpoint reporting a 10% in-game rate for every corporation. -/
def esiTenPercent : TaxEnv := ⟨fun _ => 1 / 10⟩

/-- A corp-wallet payout row: amount 90, received by corporation 7. -/
def c4corpRow : CorpPayoutRow := ⟨1, 50, 90, 7, "Payee"⟩

/-- A character-wallet payout row: amount 90, character 2 of corporation 7. -/
def c4charRow : CharPayoutRow := ⟨90, 1, 50, none, 2, 7, "Payee", none, some 9⟩

/-- A 5% character-wallet payout rule. -/
def c4charCfg : CharacterPayoutTaxConfiguration := ⟨"payout", none, "corporate_reward_payout", 5⟩

/-- A 5% corp-wallet payout rule. -/
def c4corpCfg : CorpTaxPayoutTaxConfiguration := ⟨"corp payout", none, "corporate_reward_payout", 5⟩

/-- A bounty journal row with net amount 600 and no recorded in-game tax. -/
def c6journalRow : CharJournalRow :=
  ⟨1, 1, 3, "bounty_prizes", 600, none, none, none, 2, 7, "A", none, none, none⟩

/-- A 5% ratting rule that includes the ESS section. -/
def c6cfg : CharacterRattingTaxConfiguration := ⟨"ratting", 5, true, []⟩

/-- Two distinct transactions of the same corporation 7. -/
def c9rowA : CharPayoutRow := ⟨10, 1, 50, none, 2, 7, "X", none, some 9⟩

/-- Second transaction of corporation 7 (different entry id and character). -/
def c9rowB : CharPayoutRow := ⟨20, 2, 51, none, 3, 7, "Y", none, some 9⟩

/-- The rate-history example from the spec, `[(2024-01-01, 5%), (2024-06-01, 8%)]`
(dates as `yyyymmdd` numbers, which order like the dates themselves). -/
def c3history : List TaxRateEntry := [⟨20240101, 5⟩, ⟨20240601, 8⟩]

/-! ## Association-list lemmas -/

theorem alookup_aset_self {κ β : Type} [DecidableEq κ] (m : List (κ × β)) (k : κ) (v : β) :
    alookup (aset m k v) k = some v := by
  induction m with
  | nil => simp [aset, alookup]
  | cons p rest ih =>
    by_cases h : p.1 = k
    · simp [aset, alookup, h]
    · simp [aset, alookup, h, ih]

theorem alookup_aset_ne {κ β : Type} [DecidableEq κ] (m : List (κ × β)) (k k2 : κ) (v : β)
    (h : k ≠ k2) : alookup (aset m k v) k2 = alookup m k2 := by
  induction m with
  | nil => simp [aset, alookup, h]
  | cons p rest ih =>
    by_cases hp : p.1 = k
    · simp [aset, alookup, hp, h]
    · simp only [aset, alookup, if_neg hp]
      by_cases hq : p.1 = k2
      · simp [alookup, hq]
      · simp [alookup, hq, ih]

theorem alookup_append {κ β : Type} [DecidableEq κ] (m1 m2 : List (κ × β)) (k : κ) :
    alookup (m1 ++ m2) k = (alookup m1 k).or (alookup m2 k) := by
  induction m1 with
  | nil => simp [alookup]
  | cons p rest ih =>
    by_cases h : p.1 = k
    · simp [alookup, h]
    · simp [alookup, h, ih]

/-! ## C1: the processed-marker exclusion -/

/-- C1: the claim states that `get_payment_data` excludes every transaction
marked processed by a previous `send_invoices` run, making a second run over
the same window charge zero additional tax.  In the source the marker models
declare the reverse query names `character_payout_tax_record` and
`corp_taxed`, yet every fetch excludes via the lookup `taxed`; that lookup
resolves to no relation, so the fetch raises `FieldError` for every input
instead of performing the claimed exclusion (the second run errors rather
than charging zero). -/
theorem c1_processed_exclusion_never_happens :
    ("taxed" ∉ characterWalletJournalReverseNames ∧
      "taxed" ∉ corporationWalletJournalReverseNames) ∧
    (∀ (cfg : CharacterRattingTaxConfiguration) (db : JournalDB)
       (start_date end_date : Int) (alliance_filter : Option (List Nat)),
       cfg.get_payment_data db start_date end_date alliance_filter =
         .error (.fieldError "taxed")) ∧
    queryRaisedFieldError (c6cfg.get_payment_data ⟨[c6journalRow], [], []⟩ 0 100 none) =
      some "taxed" := by
  refine ⟨by decide, ?_, by with_unfolding_all decide⟩
  intro cfg db start_date end_date alliance_filter
  simp [CharacterRattingTaxConfiguration.get_payment_data,
    characterWalletJournalReverseNames]

/-! ## C5: corp-level roll-up merges -/

/-- C5: the claim states that the merged `end` is the maximum of the group
`end` timestamps.  Evaluating both roll-up copies on a single group with
`start = 10`, `end = 20` yields a merged `end` of 10 — the source assigns
`t["start"]` inside the `t["end"] > output[cid]["end"]` branch — while the
maximum of the ends is 20. -/
theorem c5_rollup_end_takes_start :
    (CharacterRattingTaxConfiguration.process_character_aggregates_corp_level
        [(1, c5group)] true).map (fun p => (p.1, p.2.start, p.2.«end»)) =
      [(some 7, 10, 10)] ∧
    (CharacterPayoutTaxConfiguration.process_character_aggregates_corp_level
        [(1, c5group)] true).map (fun p => (p.1, p.2.start, p.2.«end»)) =
      [(some 7, 10, 10)] ∧
    c5group.«end» = 20 ∧ (10 : Int) ≠ 20 := by
  decide

/-! ## C3, C4, C6, C9: counterexamples -/

/-- C3 counterexample: called with an explicitly empty history list, a query
time 100 and default 10, `get_tax_rate` ignores the provided list (Python
`if not tax_rates:` treats `[]` like `None`) and answers 3 from the stored
history of corporation 1, although no record of the provided history has a
start date strictly before the query time, so the claim requires 10. -/
theorem c3_empty_history_counterexample :
    CorpTaxHistory.get_tax_rate [⟨1, 0, 3⟩] 1 100 (some []) 10 = 3 ∧ (3 : ℚ) ≠ 10 := by
  decide

/-- C4 counterexample: the corporation-wallet aggregator applied to a single
transaction of amount 90 whose resolved corp rate is 10% yields a
pre-tax total of 900 (the source computes `amount / (rate / 100)`), not the
claimed `90 / (100 - 10) * 100 = 100`. -/
theorem c4_corp_payout_formula_counterexample :
    (alookup (c4corpCfg.process_aggregates esiTenPercent [] true [c4corpRow]).output 7).map
        (fun a => a.pre_tax_total) = some 900 ∧
    (90 : ℚ) / (100 - 10) * 100 = 100 ∧ (900 : ℚ) ≠ 100 := by
  with_unfolding_all decide

/-- C6 counterexample: the ratting aggregator applied to the example given in
the claim itself (net amount 600, no recorded tax, ESS included, 5% rule) does not
produce exactly 950 / 47.5: the source multiplies by `Decimal(0.95)`, the
binary64 value of the float literal, which is slightly below 19/20. -/
theorem c6_ratting_exactness_counterexample :
    (alookup (c6cfg.process_character_aggregates
        [CharacterRattingTaxConfiguration.values c6journalRow]).output 2).map
      (fun a => (decide (a.pre_tax_total = 950), decide (a.tax_to_pay = 95 / 2))) =
      some (false, false) := by
  with_unfolding_all decide

/-- C9 counterexample: two transactions of the same corporation 7 (one
distinct corporation in the run) trigger two live ESI lookups, so the lookup
is not performed at most once per distinct corporation. -/
theorem c9_esi_lookup_per_transaction_counterexample :
    (c4charCfg.process_character_aggregates esiTenPercent [] [c9rowA, c9rowB]).esiLog =
        [7, 7] ∧
    ([c9rowA, c9rowB].map (fun d => d.corp)).dedup = [7] ∧
    ¬ ((c4charCfg.process_character_aggregates esiTenPercent [] [c9rowA, c9rowB]).esiLog.length ≤ 1) := by
  with_unfolding_all decide

/-! ## C2: balances and ledger entry sums -/

theorem userBalance_getOrCreateUser (st : DBState) (uid u : Nat) :
    userBalance (getOrCreateUserAccount st uid) u = userBalance st u := by
  unfold getOrCreateUserAccount userBalance
  cases h : alookup st.userAccounts uid with
  | some v => rfl
  | none =>
    simp only [alookup_append]
    by_cases he : uid = u
    · subst he; rw [h]; simp [alookup]
    · rw [show alookup [(uid, (0 : ℚ))] u = none by simp [alookup, he]]
      cases alookup st.userAccounts u <;> rfl

theorem corpBalance_getOrCreateCorp (st : DBState) (cid c : Nat) :
    corpBalance (getOrCreateCorpAccount st cid) c = corpBalance st c := by
  unfold getOrCreateCorpAccount corpBalance
  cases h : alookup st.corpAccounts cid with
  | some v => rfl
  | none =>
    simp only [alookup_append]
    by_cases he : cid = c
    · subst he; rw [h]; simp [alookup]
    · rw [show alookup [(cid, (0 : ℚ))] c = none by simp [alookup, he]]
      cases alookup st.corpAccounts c <;> rfl

theorem userBalance_add_ledger_entry (env : Env) (st : DBState) (uid : Nat) (am : ℚ)
    (de ty : String) (dt : Option Int) (ch : Option Nat) (u : Nat) :
    userBalance (UserAccount.add_ledger_entry env st uid am de ty dt ch).1 u =
      (if uid = u then userBalance st u + am else userBalance st u) := by
  unfold UserAccount.add_ledger_entry userBalance
  by_cases he : uid = u
  · subst he; simp [alookup_aset_self]
  · simp [alookup_aset_ne _ _ _ _ he, he]

theorem corpBalance_add_ledger_entry (env : Env) (st : DBState) (cid : Nat) (am : ℚ)
    (de ty : String) (ch : Option Nat) (c : Nat) :
    corpBalance (CorpAccount.add_ledger_entry env st cid am de ty ch).1 c =
      (if cid = c then corpBalance st c + am else corpBalance st c) := by
  unfold CorpAccount.add_ledger_entry corpBalance
  by_cases he : cid = c
  · subst he; simp [alookup_aset_self]
  · simp [alookup_aset_ne _ _ _ _ he, he]

theorem userEntrySum_getOrCreateUser (st : DBState) (uid u : Nat) :
    userEntrySum (getOrCreateUserAccount st uid) u = userEntrySum st u := by
  unfold getOrCreateUserAccount userEntrySum
  cases alookup st.userAccounts uid <;> rfl

theorem corpEntrySum_getOrCreateCorp (st : DBState) (cid c : Nat) :
    corpEntrySum (getOrCreateCorpAccount st cid) c = corpEntrySum st c := by
  unfold getOrCreateCorpAccount corpEntrySum
  cases alookup st.corpAccounts cid <;> rfl

theorem userEntrySum_add_ledger_entry (env : Env) (st : DBState) (uid : Nat) (am : ℚ)
    (de ty : String) (dt : Option Int) (ch : Option Nat) (u : Nat) :
    userEntrySum (UserAccount.add_ledger_entry env st uid am de ty dt ch).1 u =
      (if uid = u then userEntrySum st u + am else userEntrySum st u) := by
  unfold UserAccount.add_ledger_entry userEntrySum
  by_cases he : uid = u
  · subst he
    simp [List.filter_append, List.map_append]
  · simp [List.filter_append, List.map_append, he]

theorem corpEntrySum_add_ledger_entry (env : Env) (st : DBState) (cid : Nat) (am : ℚ)
    (de ty : String) (ch : Option Nat) (c : Nat) :
    corpEntrySum (CorpAccount.add_ledger_entry env st cid am de ty ch).1 c =
      (if cid = c then corpEntrySum st c + am else corpEntrySum st c) := by
  unfold CorpAccount.add_ledger_entry corpEntrySum
  by_cases he : cid = c
  · subst he
    simp [List.filter_append, List.map_append]
  · simp [List.filter_append, List.map_append, he]

theorem userBalance_applyPost (env : Env) (st : DBState) (r : PostRequest) (uid : Nat) :
    userBalance (applyPost env st r) uid = userBalance st uid + reqDeltaUser env uid r := by
  obtain ⟨tgt, amount, de, ty, dt⟩ := r
  unfold applyPost post_ledger_entry reqDeltaUser
  dsimp only
  by_cases h1 : ty ∈ LEDGER_ENTRY_TYPES
  · by_cases h2 : amount ≤ 0
    · have h3 : ¬ (ty ∈ LEDGER_ENTRY_TYPES ∧ 0 < amount) := by
        rintro ⟨-, hlt⟩
        exact absurd h2 (not_le.mpr hlt)
      simp [h1, h2, h3]
    · have h0 : (0 : ℚ) < amount := lt_of_not_ge h2
      cases tgt with
      | user uid2 =>
        simp [h1, h2, h0, userBalance_add_ledger_entry, userBalance_getOrCreateUser]
        split <;> simp
      | character ch =>
        cases hu : env.resolveUser ch with
        | none => simp [h1, h2, h0, hu, userBalance]
        | some usr =>
          by_cases hdel : usr.username = "deleted"
          · simp [h1, h2, h0, hu, hdel, userBalance]
          · simp [h1, h2, h0, hu, hdel, userBalance_add_ledger_entry,
              userBalance_getOrCreateUser]
            split <;> simp
      | corporation cid =>
        have hacc : ∀ st2 : DBState,
            (CorpAccount.add_ledger_entry env st2 cid (signedAmount ty amount) de ty none).1.userAccounts
              = st2.userAccounts := fun _ => rfl
        have hacc2 : ∀ st2 : DBState,
            (getOrCreateCorpAccount st2 cid).userAccounts = st2.userAccounts := by
          intro st2
          unfold getOrCreateCorpAccount
          cases alookup st2.corpAccounts cid <;> rfl
        simp [h1, h2, h0, userBalance, hacc, hacc2]
      | other => simp [h1, h2, h0]
  · have h3 : ¬ (ty ∈ LEDGER_ENTRY_TYPES ∧ 0 < amount) := by
      rintro ⟨hm, -⟩
      exact h1 hm
    simp [h1, h3]

theorem userEntrySum_applyPost (env : Env) (st : DBState) (r : PostRequest) (uid : Nat) :
    userEntrySum (applyPost env st r) uid = userEntrySum st uid + reqDeltaUser env uid r := by
  obtain ⟨tgt, amount, de, ty, dt⟩ := r
  unfold applyPost post_ledger_entry reqDeltaUser
  dsimp only
  by_cases h1 : ty ∈ LEDGER_ENTRY_TYPES
  · by_cases h2 : amount ≤ 0
    · have h3 : ¬ (ty ∈ LEDGER_ENTRY_TYPES ∧ 0 < amount) := by
        rintro ⟨-, hlt⟩
        exact absurd h2 (not_le.mpr hlt)
      simp [h1, h2, h3]
    · have h0 : (0 : ℚ) < amount := lt_of_not_ge h2
      cases tgt with
      | user uid2 =>
        simp [h1, h2, h0, userEntrySum_add_ledger_entry, userEntrySum_getOrCreateUser]
        split <;> simp
      | character ch =>
        cases hu : env.resolveUser ch with
        | none => simp [h1, h2, h0, hu, userEntrySum]
        | some usr =>
          by_cases hdel : usr.username = "deleted"
          · simp [h1, h2, h0, hu, hdel, userEntrySum]
          · simp [h1, h2, h0, hu, hdel, userEntrySum_add_ledger_entry,
              userEntrySum_getOrCreateUser]
            split <;> simp
      | corporation cid =>
        have hent : ∀ st2 : DBState,
            (CorpAccount.add_ledger_entry env st2 cid (signedAmount ty amount) de ty none).1.userEntries
              = st2.userEntries := fun _ => rfl
        have hent2 : ∀ st2 : DBState,
            (getOrCreateCorpAccount st2 cid).userEntries = st2.userEntries := by
          intro st2
          unfold getOrCreateCorpAccount
          cases alookup st2.corpAccounts cid <;> rfl
        simp [h1, h2, h0, userEntrySum, hent, hent2]
      | other => simp [h1, h2, h0]
  · have h3 : ¬ (ty ∈ LEDGER_ENTRY_TYPES ∧ 0 < amount) := by
      rintro ⟨hm, -⟩
      exact h1 hm
    simp [h1, h3]

theorem corpBalance_applyPost (env : Env) (st : DBState) (r : PostRequest) (cid : Nat) :
    corpBalance (applyPost env st r) cid = corpBalance st cid + reqDeltaCorp cid r := by
  obtain ⟨tgt, amount, de, ty, dt⟩ := r
  unfold applyPost post_ledger_entry reqDeltaCorp
  dsimp only
  by_cases h1 : ty ∈ LEDGER_ENTRY_TYPES
  · by_cases h2 : amount ≤ 0
    · have h3 : ¬ (ty ∈ LEDGER_ENTRY_TYPES ∧ 0 < amount) := by
        rintro ⟨-, hlt⟩
        exact absurd h2 (not_le.mpr hlt)
      simp [h1, h2, h3]
    · have h0 : (0 : ℚ) < amount := lt_of_not_ge h2
      have hc : ∀ (st2 : DBState) (uid2 : Nat),
          (UserAccount.add_ledger_entry env st2 uid2 (signedAmount ty amount) de ty none
            none).1.corpAccounts = st2.corpAccounts := fun _ _ => rfl
      have hc2 : ∀ (st2 : DBState) (uid2 ch2 : Nat),
          (UserAccount.add_ledger_entry env st2 uid2 (signedAmount ty amount) de ty none
            (some ch2)).1.corpAccounts = st2.corpAccounts := fun _ _ _ => rfl
      have hg : ∀ (st2 : DBState) (uid2 : Nat),
          (getOrCreateUserAccount st2 uid2).corpAccounts = st2.corpAccounts := by
        intro st2 uid2
        unfold getOrCreateUserAccount
        cases alookup st2.userAccounts uid2 <;> rfl
      cases tgt with
      | user uid2 => simp [h1, h2, h0, corpBalance, hc, hg]
      | character ch =>
        cases hu : env.resolveUser ch with
        | none => simp [h1, h2, h0, hu, corpBalance]
        | some usr =>
          by_cases hdel : usr.username = "deleted"
          · simp [h1, h2, h0, hu, hdel, corpBalance]
          · simp [h1, h2, h0, hu, hdel, corpBalance, hc2, hg]
      | corporation cid2 =>
        simp [h1, h2, h0, corpBalance_add_ledger_entry, corpBalance_getOrCreateCorp]
        split <;> simp
      | other => simp [h1, h2, h0]
  · have h3 : ¬ (ty ∈ LEDGER_ENTRY_TYPES ∧ 0 < amount) := by
      rintro ⟨hm, -⟩
      exact h1 hm
    simp [h1, h3]

theorem corpEntrySum_applyPost (env : Env) (st : DBState) (r : PostRequest) (cid : Nat) :
    corpEntrySum (applyPost env st r) cid = corpEntrySum st cid + reqDeltaCorp cid r := by
  obtain ⟨tgt, amount, de, ty, dt⟩ := r
  unfold applyPost post_ledger_entry reqDeltaCorp
  dsimp only
  by_cases h1 : ty ∈ LEDGER_ENTRY_TYPES
  · by_cases h2 : amount ≤ 0
    · have h3 : ¬ (ty ∈ LEDGER_ENTRY_TYPES ∧ 0 < amount) := by
        rintro ⟨-, hlt⟩
        exact absurd h2 (not_le.mpr hlt)
      simp [h1, h2, h3]
    · have h0 : (0 : ℚ) < amount := lt_of_not_ge h2
      have hc : ∀ (st2 : DBState) (uid2 : Nat),
          (UserAccount.add_ledger_entry env st2 uid2 (signedAmount ty amount) de ty none
            none).1.corpEntries = st2.corpEntries := fun _ _ => rfl
      have hc2 : ∀ (st2 : DBState) (uid2 ch2 : Nat),
          (UserAccount.add_ledger_entry env st2 uid2 (signedAmount ty amount) de ty none
            (some ch2)).1.corpEntries = st2.corpEntries := fun _ _ _ => rfl
      have hg : ∀ (st2 : DBState) (uid2 : Nat),
          (getOrCreateUserAccount st2 uid2).corpEntries = st2.corpEntries := by
        intro st2 uid2
        unfold getOrCreateUserAccount
        cases alookup st2.userAccounts uid2 <;> rfl
      cases tgt with
      | user uid2 => simp [h1, h2, h0, corpEntrySum, hc, hg]
      | character ch =>
        cases hu : env.resolveUser ch with
        | none => simp [h1, h2, h0, hu, corpEntrySum]
        | some usr =>
          by_cases hdel : usr.username = "deleted"
          · simp [h1, h2, h0, hu, hdel, corpEntrySum]
          · simp [h1, h2, h0, hu, hdel, corpEntrySum, hc2, hg]
      | corporation cid2 =>
        simp [h1, h2, h0, corpEntrySum_add_ledger_entry, corpEntrySum_getOrCreateCorp]
        split <;> simp
      | other => simp [h1, h2, h0]
  · have h3 : ¬ (ty ∈ LEDGER_ENTRY_TYPES ∧ 0 < amount) := by
      rintro ⟨hm, -⟩
      exact h1 hm
    simp [h1, h3]

theorem userBalance_postMany (env : Env) (uid : Nat) :
    ∀ (rs : List PostRequest) (st : DBState),
      userBalance (postMany env st rs) uid =
        userBalance st uid + (rs.map (reqDeltaUser env uid)).sum := by
  intro rs
  induction rs with
  | nil => intro st; simp [postMany]
  | cons r rest ih =>
    intro st
    have hstep : postMany env st (r :: rest) = postMany env (applyPost env st r) rest := rfl
    rw [hstep, ih, userBalance_applyPost]
    simp [add_assoc]

theorem userEntrySum_postMany (env : Env) (uid : Nat) :
    ∀ (rs : List PostRequest) (st : DBState),
      userEntrySum (postMany env st rs) uid =
        userEntrySum st uid + (rs.map (reqDeltaUser env uid)).sum := by
  intro rs
  induction rs with
  | nil => intro st; simp [postMany]
  | cons r rest ih =>
    intro st
    have hstep : postMany env st (r :: rest) = postMany env (applyPost env st r) rest := rfl
    rw [hstep, ih, userEntrySum_applyPost]
    simp [add_assoc]

theorem corpBalance_postMany (env : Env) (cid : Nat) :
    ∀ (rs : List PostRequest) (st : DBState),
      corpBalance (postMany env st rs) cid =
        corpBalance st cid + (rs.map (reqDeltaCorp cid)).sum := by
  intro rs
  induction rs with
  | nil => intro st; simp [postMany]
  | cons r rest ih =>
    intro st
    have hstep : postMany env st (r :: rest) = postMany env (applyPost env st r) rest := rfl
    rw [hstep, ih, corpBalance_applyPost]
    simp [add_assoc]

theorem corpEntrySum_postMany (env : Env) (cid : Nat) :
    ∀ (rs : List PostRequest) (st : DBState),
      corpEntrySum (postMany env st rs) cid =
        corpEntrySum st cid + (rs.map (reqDeltaCorp cid)).sum := by
  intro rs
  induction rs with
  | nil => intro st; simp [postMany]
  | cons r rest ih =>
    intro st
    have hstep : postMany env st (r :: rest) = postMany env (applyPost env st r) rest := rfl
    rw [hstep, ih, corpEntrySum_applyPost]
    simp [add_assoc]

/-- C2: after any finite sequence of postings from a fresh database, every
user and corporation account balance equals the sum of the signed amounts of
its ledger entries (deposits stored `+amount`, every other kind `-amount` by
`signedAmount`); the resulting balances are independent of the posting order;
and on the example from the spec — deposit 100 then tax 30 to one fresh user — the
balance is 70 and the stored entries are `+100` (deposit) and `-30` (tax),
with balance snapshots 100 and 70. -/
theorem c2_balance_is_sum_of_signed_entries :
    (∀ (env : Env) (rs : List PostRequest) (uid : Nat),
      userBalance (postMany env emptyDB rs) uid = userEntrySum (postMany env emptyDB rs) uid) ∧
    (∀ (env : Env) (rs : List PostRequest) (cid : Nat),
      corpBalance (postMany env emptyDB rs) cid = corpEntrySum (postMany env emptyDB rs) cid) ∧
    (∀ (env : Env) (rs rs2 : List PostRequest) (uid : Nat), rs.Perm rs2 →
      userBalance (postMany env emptyDB rs) uid = userBalance (postMany env emptyDB rs2) uid) ∧
    (∀ (env : Env) (rs rs2 : List PostRequest) (cid : Nat), rs.Perm rs2 →
      corpBalance (postMany env emptyDB rs) cid = corpBalance (postMany env emptyDB rs2) cid) ∧
    userBalance (postMany envNoUsers emptyDB c2example) 1 = 70 ∧
    (postMany envNoUsers emptyDB c2example).userEntries.map
        (fun e => (e.amount, e.entry_type, e.balance)) =
      [(100, "deposit", 100), (-30, "tax", 70)] := by
  refine ⟨?_, ?_, ?_, ?_, ?_, ?_⟩
  · intro env rs uid
    rw [userBalance_postMany, userEntrySum_postMany]
    rfl
  · intro env rs cid
    rw [corpBalance_postMany, corpEntrySum_postMany]
    rfl
  · intro env rs rs2 uid hperm
    rw [userBalance_postMany, userBalance_postMany]
    exact congrArg _ ((hperm.map (reqDeltaUser env uid)).sum_eq)
  · intro env rs rs2 cid hperm
    rw [corpBalance_postMany, corpBalance_postMany]
    exact congrArg _ ((hperm.map (reqDeltaCorp cid)).sum_eq)
  · with_unfolding_all decide
  · with_unfolding_all decide

/-- C2 witness: the order-independence conjuncts applied to the concrete
two-posting example and its transposition. -/
theorem c2_balance_is_sum_of_signed_entries_witness :
    userBalance (postMany envNoUsers emptyDB c2example) 1 =
      userBalance (postMany envNoUsers emptyDB c2example.reverse) 1 ∧
    corpBalance (postMany envNoUsers emptyDB c2example) 1 =
      corpBalance (postMany envNoUsers emptyDB c2example.reverse) 1 :=
  ⟨c2_balance_is_sum_of_signed_entries.2.2.1 envNoUsers c2example c2example.reverse 1
      (List.reverse_perm c2example).symm,
    c2_balance_is_sum_of_signed_entries.2.2.2.1 envNoUsers c2example c2example.reverse 1
      (List.reverse_perm c2example).symm⟩

/-! ## C7: postings to characters without a resolvable user -/

/-- C7: a valid posting whose target character has no resolvable user (or
resolves to the sentinel `"deleted"` user) creates and returns an Unclaimed
Tax record carrying the (signed) amount, the type, the description and the
character; no ledger entry is created and no account balance changes. -/
theorem c7_unresolved_character_becomes_unclaimed
    (env : Env) (st : DBState) (chId : Nat) (amount : ℚ)
    (description entry_type : String) (date : Option Int)
    (hty : entry_type ∈ LEDGER_ENTRY_TYPES) (hpos : 0 < amount)
    (hunres : env.resolveUser chId = none ∨
      ∃ u, env.resolveUser chId = some u ∧ u.username = "deleted") :
    post_ledger_entry env st (.character chId) amount description entry_type date =
      .ok ({ st with unclaimed := st.unclaimed ++
              [{ character := chId, amount := signedAmount entry_type amount,
                 description := description, type := entry_type, created := env.now }] },
           .unclaimedTax
             { character := chId, amount := signedAmount entry_type amount,
               description := description, type := entry_type, created := env.now }) ∧
    (∀ uid, userBalance
        (applyPost env st ⟨.character chId, amount, description, entry_type, date⟩) uid =
      userBalance st uid) ∧
    (∀ cid, corpBalance
        (applyPost env st ⟨.character chId, amount, description, entry_type, date⟩) cid =
      corpBalance st cid) ∧
    (applyPost env st ⟨.character chId, amount, description, entry_type, date⟩).userEntries =
      st.userEntries ∧
    (applyPost env st ⟨.character chId, amount, description, entry_type, date⟩).corpEntries =
      st.corpEntries := by
  have h2 : ¬ amount ≤ 0 := not_le.mpr hpos
  have heq : post_ledger_entry env st (.character chId) amount description entry_type date =
      .ok ({ st with unclaimed := st.unclaimed ++
              [{ character := chId, amount := signedAmount entry_type amount,
                 description := description, type := entry_type, created := env.now }] },
           .unclaimedTax
             { character := chId, amount := signedAmount entry_type amount,
               description := description, type := entry_type, created := env.now }) := by
    rcases hunres with hu | ⟨u, hu, hdel⟩
    · simp [post_ledger_entry, hty, h2, hu]
    · simp [post_ledger_entry, hty, h2, hu, hdel]
  refine ⟨heq, ?_, ?_, ?_, ?_⟩ <;> simp [applyPost, heq, userBalance, corpBalance]

/-- C7 witness: the theorem at a concrete unresolvable character posting. -/
theorem c7_unresolved_character_becomes_unclaimed_witness :
    post_ledger_entry envNoUsers emptyDB (.character 9) 50 "ratting tax" "tax" none =
      .ok ({ emptyDB with unclaimed :=
              [{ character := 9, amount := signedAmount "tax" 50,
                 description := "ratting tax", type := "tax", created := envNoUsers.now }] },
           .unclaimedTax
             { character := 9, amount := signedAmount "tax" 50,
               description := "ratting tax", type := "tax", created := envNoUsers.now }) :=
  (c7_unresolved_character_becomes_unclaimed envNoUsers emptyDB 9 50 "ratting tax" "tax" none
    (by decide) (by decide) (Or.inl rfl)).1

/-! ## C8: validation failures -/

/-- C8: `post_ledger_entry` raises exactly when the entry type is not one of
the five recognized kinds, or the amount is not strictly positive, or the
target is none of user / character / corporation; and a raising call leaves
the database unchanged (no entry, account or unclaimed-tax record). -/
theorem c8_error_iff_invalid_input
    (env : Env) (st : DBState) (target : Target) (amount : ℚ)
    (description entry_type : String) (date : Option Int) :
    (raisedError (post_ledger_entry env st target amount description entry_type date) = true ↔
      (entry_type ∉ LEDGER_ENTRY_TYPES ∨ amount ≤ 0 ∨ target = Target.other)) ∧
    (raisedError (post_ledger_entry env st target amount description entry_type date) = true →
      applyPost env st ⟨target, amount, description, entry_type, date⟩ = st) := by
  by_cases h1 : entry_type ∈ LEDGER_ENTRY_TYPES
  · by_cases h2 : amount ≤ 0
    · simp [post_ledger_entry, applyPost, raisedError, h1, h2]
    · cases target with
      | user uid => simp [post_ledger_entry, applyPost, raisedError, h1, h2]
      | character ch =>
        cases hu : env.resolveUser ch with
        | none => simp [post_ledger_entry, applyPost, raisedError, h1, h2, hu]
        | some usr =>
          by_cases hdel : usr.username = "deleted" <;>
            simp [post_ledger_entry, applyPost, raisedError, h1, h2, hu, hdel]
      | corporation cid => simp [post_ledger_entry, applyPost, raisedError, h1, h2]
      | other => simp [post_ledger_entry, applyPost, raisedError, h1, h2]
  · simp [post_ledger_entry, applyPost, raisedError, h1]

/-- C8 witness: the theorem at a concrete invalid entry type, showing the
error and the untouched database. -/
theorem c8_error_iff_invalid_input_witness :
    raisedError (post_ledger_entry envNoUsers emptyDB (.user 1) 100 "d" "bogus" none) = true ∧
    applyPost envNoUsers emptyDB ⟨.user 1, 100, "d", "bogus", none⟩ = emptyDB :=
  have h := c8_error_iff_invalid_input envNoUsers emptyDB (.user 1) 100 "d" "bogus" none
  have herr : raisedError (post_ledger_entry envNoUsers emptyDB (.user 1) 100 "d" "bogus" none)
      = true := h.1.mpr (Or.inl (by decide))
  ⟨herr, h.2 herr⟩

/-! ## C10: the dead date argument -/

/-- C10: two `post_ledger_entry` calls that differ only in the optional
`date` argument return identical results and state (the assignment
`date = date or timezone.now()` is dead code), and every record a successful
call creates carries the current clock as its `created` timestamp. -/
theorem c10_date_argument_is_ignored
    (env : Env) (st : DBState) (target : Target) (amount : ℚ)
    (description entry_type : String) (d1 d2 : Option Int) :
    post_ledger_entry env st target amount description entry_type d1 =
      post_ledger_entry env st target amount description entry_type d2 ∧
    ((post_ledger_entry env st target amount description entry_type d1).toOption.all
      (fun p => recordCreated p.2 == env.now)) = true := by
  constructor
  · rfl
  · by_cases h1 : entry_type ∈ LEDGER_ENTRY_TYPES
    · by_cases h2 : amount ≤ 0
      · simp [post_ledger_entry, h1, h2, Except.toOption, Option.all]
      · cases target with
        | user uid =>
          simp [post_ledger_entry, h1, h2, UserAccount.add_ledger_entry, recordCreated,
            Except.toOption, Option.all]
        | character ch =>
          cases hu : env.resolveUser ch with
          | none => simp [post_ledger_entry, h1, h2, hu, recordCreated,
              Except.toOption, Option.all]
          | some usr =>
            by_cases hdel : usr.username = "deleted" <;>
              simp [post_ledger_entry, h1, h2, hu, hdel,
                UserAccount.add_ledger_entry, recordCreated, Except.toOption, Option.all]
        | corporation cid =>
          simp [post_ledger_entry, h1, h2, CorpAccount.add_ledger_entry, recordCreated,
            Except.toOption, Option.all]
        | other => simp [post_ledger_entry, h1, h2, Except.toOption, Option.all]
    · simp [post_ledger_entry, h1, Except.toOption, Option.all]

/-! ## C3: rate resolution -/

theorem walkRates_eq_filter_foldl :
    ∀ (l : List TaxRateEntry), List.Sorted rateLE l → ∀ (t : Int) (d : ℚ),
      walkRates l t d =
        (l.filter (fun r => decide (r.start_date < t))).foldl (fun _ r => r.tax_rate) d := by
  intro l
  induction l with
  | nil => intro _ t d; rfl
  | cons a rest ih =>
    intro hs t d
    by_cases hc : a.start_date < t
    · simp only [walkRates, if_pos hc, List.filter_cons, decide_eq_true hc, ite_true,
        List.foldl_cons]
      exact ih hs.of_cons t a.tax_rate
    · have hrest : rest.filter (fun r => decide (r.start_date < t)) = [] := by
        rw [List.filter_eq_nil_iff]
        intro y hy
        have hle : a.start_date ≤ y.start_date := List.rel_of_sorted_cons hs y hy
        simp only [decide_eq_true_eq]
        omega
      simp [walkRates, if_neg hc, List.filter_cons, hc, hrest]

theorem foldl_rate_of_sorted :
    ∀ (l : List TaxRateEntry), List.Sorted rateLE l → l ≠ [] → ∀ (d : ℚ),
      ∃ m, m ∈ l ∧ (∀ y ∈ l, y.start_date ≤ m.start_date) ∧
        l.foldl (fun _ r => r.tax_rate) d = m.tax_rate := by
  intro l
  induction l with
  | nil => intro _ hne; exact absurd rfl hne
  | cons a rest ih =>
    intro hs _ d
    cases rest with
    | nil =>
      exact ⟨a, List.mem_singleton_self a, by simp, rfl⟩
    | cons b rest2 =>
      obtain ⟨m, hm, hmax, hfold⟩ := ih hs.of_cons (by simp) a.tax_rate
      refine ⟨m, List.mem_cons_of_mem a hm, ?_, ?_⟩
      · intro y hy
        rcases List.mem_cons.mp hy with hya | hyr
        · subst hya
          exact List.rel_of_sorted_cons hs m hm
        · exact hmax y hyr
      · simpa [List.foldl_cons] using hfold

/-- C3 (amended): for every non-empty provided history list with pairwise
distinct start dates, `get_tax_rate` returns the default when no record has
a start date strictly before the query time, and otherwise the rate of the
record with the latest start date strictly before the query time; the example
from the spec resolves to 10 / 5 / 8.  (When the provided list is empty the stored
per-corporation history is consulted instead — see the counterexample.) -/
theorem c3_rate_resolution (db : List CorpTaxHistoryRow) (corp_id : Nat) (t : Int)
    (l : List TaxRateEntry) (d : ℚ) (hne : l ≠ [])
    (hnd : (l.map TaxRateEntry.start_date).Nodup) :
    ((∀ r ∈ l, ¬ r.start_date < t) →
      CorpTaxHistory.get_tax_rate db corp_id t (some l) d = d) ∧
    (∀ r ∈ l, r.start_date < t →
      (∀ r2 ∈ l, r2.start_date < t → r2.start_date ≤ r.start_date) →
      CorpTaxHistory.get_tax_rate db corp_id t (some l) d = r.tax_rate) ∧
    CorpTaxHistory.get_tax_rate [] 1 20231201 (some c3history) 10 = 10 ∧
    CorpTaxHistory.get_tax_rate [] 1 20240301 (some c3history) 10 = 5 ∧
    CorpTaxHistory.get_tax_rate [] 1 20240701 (some c3history) 10 = 8 := by
  have hempty : l.isEmpty = false := by
    cases l with
    | nil => exact absurd rfl hne
    | cons a rest => rfl
  have hget : CorpTaxHistory.get_tax_rate db corp_id t (some l) d =
      walkRates (List.insertionSort rateLE l) t d := by
    unfold CorpTaxHistory.get_tax_rate
    simp [hempty]
  have hsort : List.Sorted rateLE (List.insertionSort rateLE l) :=
    List.sorted_insertionSort rateLE l
  have hperm : (List.insertionSort rateLE l).Perm l := List.perm_insertionSort rateLE l
  have hwalk : CorpTaxHistory.get_tax_rate db corp_id t (some l) d =
      ((List.insertionSort rateLE l).filter
        (fun r => decide (r.start_date < t))).foldl (fun _ r => r.tax_rate) d := by
    rw [hget, walkRates_eq_filter_foldl _ hsort]
  refine ⟨?_, ?_, by decide, by decide, by decide⟩
  · intro hnone
    have hfil : (List.insertionSort rateLE l).filter (fun r => decide (r.start_date < t)) = [] := by
      rw [List.filter_eq_nil_iff]
      intro y hy
      have : y ∈ l := hperm.mem_iff.mp hy
      simpa using hnone y this
    rw [hwalk, hfil]
    rfl
  · intro r hr hrt hrmax
    have hrs : r ∈ (List.insertionSort rateLE l).filter (fun r => decide (r.start_date < t)) :=
      List.mem_filter.mpr ⟨hperm.mem_iff.mpr hr, decide_eq_true hrt⟩
    have hsf : List.Sorted rateLE
        ((List.insertionSort rateLE l).filter (fun r => decide (r.start_date < t))) :=
      hsort.filter _
    obtain ⟨m, hm, hmax, hfold⟩ := foldl_rate_of_sorted _ hsf (List.ne_nil_of_mem hrs) d
    have hml : m ∈ l := hperm.mem_iff.mp (List.mem_filter.mp hm).1
    have hmt : m.start_date < t := by simpa using (List.mem_filter.mp hm).2
    have h1 : r.start_date ≤ m.start_date := hmax r hrs
    have h2 : m.start_date ≤ r.start_date := hrmax m hml hmt
    have heqs : m.start_date = r.start_date := le_antisymm h2 h1
    have hmr : m = r := List.inj_on_of_nodup_map hnd hml hr heqs
    rw [hwalk, hfold, hmr]

/-- C3 witness: the amended theorem applied to the concrete history from the
spec, resolving the 2024-07-01 query to 8% from the 2024-06-01 record. -/
theorem c3_rate_resolution_witness :
    CorpTaxHistory.get_tax_rate [] 1 20240701 (some c3history) 10 = 8 :=
  (c3_rate_resolution [] 1 20240701 c3history 10 (by decide) (by decide)).2.1
    ⟨20240601, 8⟩ (by decide) (by decide) (by decide)

/-! ## C4: payout pre-tax formulas -/

/-- C4 (amended): per transaction, the character-wallet aggregator computes
`pre_tax_total = amount / (100 - rate) * 100` and, at a resolved rate of
100%, falls back to the recorded (truthy) `tax` field of the transaction, else
records a bad transaction — never an unhandled arithmetic error; the
corporation-wallet aggregator instead computes `amount / (rate / 100)` when
the resolved rate is positive and uses the raw amount otherwise (its guard
makes the 100%-rate fallback unnecessary).  Tax owed is
`pre_tax_total * rule_tax_rate / 100`; the character-wallet example
`amount = 90` at corp rate 10% with rule tax 5% gives `(100, 5)`. -/
theorem c4_payout_pretax_formulas :
    (∀ (cfg : CharacterPayoutTaxConfiguration) (env : TaxEnv) (db : List CorpTaxHistoryRow)
       (d : CharPayoutRow) (rate : ℚ),
      CorpTaxHistory.get_tax_rate db (mainOr d.main d.char) d.date
          (some (get_corp_tax_list db d.corp)) (env.esiRate d.corp * 100) = rate →
      ((rate ≠ 100 →
        (alookup (cfg.process_character_aggregates env db [d]).output
            (mainOr d.main d.char)).map (fun a => (a.pre_tax_total, a.tax_to_pay)) =
          some (d.amount / (100 - rate) * 100,
            d.amount / (100 - rate) * 100 * (cfg.tax / 100))) ∧
       (rate = 100 → pyTruthyQ d.tax = true →
        (alookup (cfg.process_character_aggregates env db [d]).output
            (mainOr d.main d.char)).map (fun a => (a.pre_tax_total, a.tax_to_pay)) =
          some (d.tax.getD 0, d.tax.getD 0 * (cfg.tax / 100))) ∧
       (rate = 100 → pyTruthyQ d.tax = false →
        (cfg.process_character_aggregates env db [d]).bad_transactions = [d.entry_id] ∧
        alookup (cfg.process_character_aggregates env db [d]).output (mainOr d.main d.char) =
          some (initCharAgg d.main_corp)))) ∧
    (∀ (cfg : CorpTaxPayoutTaxConfiguration) (env : TaxEnv) (db : List CorpTaxHistoryRow)
       (w : CorpPayoutRow) (full : Bool) (rate : ℚ),
      CorpTaxHistory.get_tax_rate db w.division_corporation_id w.date
          (some (get_corp_tax_list db w.division_corporation_id))
          (env.esiRate w.division_corporation_id * 100) = rate →
      ((0 < rate →
        (alookup (cfg.process_aggregates env db full [w]).output
            w.division_corporation_id).map (fun a => (a.pre_tax_total, a.tax_to_pay)) =
          some (w.amount / (rate / 100), w.amount / (rate / 100) * (cfg.tax / 100))) ∧
       (¬ 0 < rate →
        (alookup (cfg.process_aggregates env db full [w]).output
            w.division_corporation_id).map (fun a => (a.pre_tax_total, a.tax_to_pay)) =
          some (w.amount, w.amount * (cfg.tax / 100))))) ∧
    (alookup (c4charCfg.process_character_aggregates esiTenPercent [] [c4charRow]).output
        2).map (fun a => (a.pre_tax_total, a.tax_to_pay)) = some (100, 5) := by
  refine ⟨?_, ?_, by with_unfolding_all decide⟩
  · intro cfg env db d rate hrate
    have hproc : cfg.process_character_aggregates env db [d] =
        CharacterPayoutTaxConfiguration.step cfg env db initCharPayoutRun d := rfl
    refine ⟨?_, ?_, ?_⟩
    · intro hne
      rw [hproc]
      unfold CharacterPayoutTaxConfiguration.step
      simp [initCharPayoutRun, alookup, aset, hrate, hne, initCharAgg]
    · intro h100 htruthy
      rw [hproc]
      unfold CharacterPayoutTaxConfiguration.step
      simp [initCharPayoutRun, alookup, aset, hrate, h100, htruthy, initCharAgg]
    · intro h100 hfalsy
      rw [hproc]
      unfold CharacterPayoutTaxConfiguration.step
      simp [initCharPayoutRun, alookup, aset, hrate, h100, hfalsy, initCharAgg]
  · intro cfg env db w full rate hrate
    have hproc : cfg.process_aggregates env db full [w] =
        CorpTaxPayoutTaxConfiguration.step cfg env db full initCorpPayoutRun w := rfl
    constructor
    · intro hpos
      rw [hproc]
      unfold CorpTaxPayoutTaxConfiguration.step
      simp [initCorpPayoutRun, alookup, aset, hrate, hpos]
    · intro hpos
      rw [hproc]
      unfold CorpTaxPayoutTaxConfiguration.step
      simp [initCorpPayoutRun, alookup, aset, hrate, hpos]

/-- C4 witness: the amended formulas at the concrete example inputs (rate 10
for the character variant; rate 10 for the corporation variant). -/
theorem c4_payout_pretax_formulas_witness :
    (alookup (c4charCfg.process_character_aggregates esiTenPercent [] [c4charRow]).output
        (mainOr c4charRow.main c4charRow.char)).map (fun a => (a.pre_tax_total, a.tax_to_pay)) =
      some (c4charRow.amount / (100 - 10) * 100,
        c4charRow.amount / (100 - 10) * 100 * (c4charCfg.tax / 100)) ∧
    (alookup (c4corpCfg.process_aggregates esiTenPercent [] true [c4corpRow]).output
        c4corpRow.division_corporation_id).map (fun a => (a.pre_tax_total, a.tax_to_pay)) =
      some (c4corpRow.amount / ((10 : ℚ) / 100),
        c4corpRow.amount / ((10 : ℚ) / 100) * (c4corpCfg.tax / 100)) :=
  ⟨((c4_payout_pretax_formulas.1 c4charCfg esiTenPercent [] c4charRow 10
      (by with_unfolding_all decide)).1 (by with_unfolding_all decide)),
   ((c4_payout_pretax_formulas.2.1 c4corpCfg esiTenPercent [] c4corpRow true 10
      (by with_unfolding_all decide)).1 (by with_unfolding_all decide))⟩

/-! ## C6: ratting pre-tax formula -/

theorem ratting_singleton_include (cfg : CharacterRattingTaxConfiguration)
    (d : RattingRow) (t : ℚ) (ht : d.total_ratted = some t)
    (hess : cfg.include_ess_section = true) :
    (alookup (cfg.process_character_aggregates [d]).output
        (mainOr d.main d.char)).map (fun a => (a.pre_tax_total, a.tax_to_pay)) =
      some (t * DEC095, t * DEC095 * (cfg.tax / 100)) := by
  have hproc : cfg.process_character_aggregates [d] =
      CharacterRattingTaxConfiguration.step cfg initRattingRun d := rfl
  rw [hproc]
  unfold CharacterRattingTaxConfiguration.step
  simp [initRattingRun, alookup, aset, ht, hess, initCharAgg]

theorem ratting_singleton_exclude (cfg : CharacterRattingTaxConfiguration)
    (d : RattingRow) (t ec : ℚ) (ht : d.total_ratted = some t)
    (hess : cfg.include_ess_section = false) (hec : d.ess_cut = some ec) :
    (alookup (cfg.process_character_aggregates [d]).output
        (mainOr d.main d.char)).map (fun a => (a.pre_tax_total, a.tax_to_pay)) =
      some (t * DEC095 - ec, (t * DEC095 - ec) * (cfg.tax / 100)) := by
  have hproc : cfg.process_character_aggregates [d] =
      CharacterRattingTaxConfiguration.step cfg initRattingRun d := rfl
  rw [hproc]
  unfold CharacterRattingTaxConfiguration.step
  simp [initRattingRun, alookup, aset, ht, hess, hec, initCharAgg]

/-- C6 (amended): the per-transaction base of the ratting aggregator is
`(amount + tax)` (each coalesced to 0) divided by 0.6, computed by the data
layer; the processing loop multiplies it by `Decimal(0.95)` — the binary64
value of the float literal, slightly below 19/20 — and subtracts the ESS cut
(`base / 0.6 * 0.35`) exactly when the include-ESS flag is off; tax owed is
that value times `rule_tax_rate / 100`.  On the example from the spec (amount 600,
no tax, flag on, 5% rule) the pre-tax total is exactly `1000 * DEC095`
(≈ 949.99999999999995559, not 950) and the tax exactly
`1000 * DEC095 * (5 / 100)` (≈ 47.499999999999998, not 47.5). -/
theorem c6_ratting_pretax_formula :
    (∀ (e : CharJournalRow),
      (CharacterRattingTaxConfiguration.values e).total_ratted =
          some ((e.amount + e.tax.getD 0) / (3 / 5)) ∧
      (CharacterRattingTaxConfiguration.values e).ess_cut =
          some ((e.amount + e.tax.getD 0) / (3 / 5) * (7 / 20))) ∧
    (∀ (cfg : CharacterRattingTaxConfiguration) (d : RattingRow) (t : ℚ),
      d.total_ratted = some t → cfg.include_ess_section = true →
      (alookup (cfg.process_character_aggregates [d]).output
          (mainOr d.main d.char)).map (fun a => (a.pre_tax_total, a.tax_to_pay)) =
        some (t * DEC095, t * DEC095 * (cfg.tax / 100))) ∧
    (∀ (cfg : CharacterRattingTaxConfiguration) (d : RattingRow) (t ec : ℚ),
      d.total_ratted = some t → cfg.include_ess_section = false → d.ess_cut = some ec →
      (alookup (cfg.process_character_aggregates [d]).output
          (mainOr d.main d.char)).map (fun a => (a.pre_tax_total, a.tax_to_pay)) =
        some (t * DEC095 - ec, (t * DEC095 - ec) * (cfg.tax / 100))) ∧
    (alookup (c6cfg.process_character_aggregates
        [CharacterRattingTaxConfiguration.values c6journalRow]).output 2).map
      (fun a => (a.pre_tax_total, a.tax_to_pay)) =
      some (1000 * DEC095, 1000 * DEC095 * (5 / 100)) := by
  refine ⟨fun e => ⟨rfl, rfl⟩, ratting_singleton_include, ratting_singleton_exclude, ?_⟩
  have hval : (CharacterRattingTaxConfiguration.values c6journalRow).total_ratted =
      some 1000 := by
    show some (((600 : ℚ) + (none : Option ℚ).getD 0) / (3 / 5)) = some 1000
    norm_num
  have h := ratting_singleton_include c6cfg
    (CharacterRattingTaxConfiguration.values c6journalRow) 1000 hval rfl
  simpa [mainOr, pyTruthyNat, CharacterRattingTaxConfiguration.values, c6journalRow,
    c6cfg] using h

/-- C6 witness: the amended per-transaction formula applied to the concrete
600-ISK bounty row. -/
theorem c6_ratting_pretax_formula_witness :
    (alookup (c6cfg.process_character_aggregates
        [CharacterRattingTaxConfiguration.values c6journalRow]).output
        (mainOr (CharacterRattingTaxConfiguration.values c6journalRow).main
          (CharacterRattingTaxConfiguration.values c6journalRow).char)).map
      (fun a => (a.pre_tax_total, a.tax_to_pay)) =
      some (1000 * DEC095, 1000 * DEC095 * (c6cfg.tax / 100)) :=
  c6_ratting_pretax_formula.2.1 c6cfg (CharacterRattingTaxConfiguration.values c6journalRow)
    1000 (by show some (((600 : ℚ) + (none : Option ℚ).getD 0) / (3 / 5)) = some 1000; norm_num)
    (by decide)

/-! ## C9: lookup counts per run -/

/-- The history cache invariant: the history-fetch log has no duplicates and
records exactly the cached corporations. -/
def charCacheInv (s : CharPayoutRunState) : Prop :=
  s.dbLog.Nodup ∧ ∀ k, k ∈ s.dbLog ↔ (alookup s.tax_cache k).isSome = true

/-- The corp-variant history cache invariant. -/
def corpCacheInv (s : CorpPayoutRunState) : Prop :=
  s.dbLog.Nodup ∧ ∀ k, k ∈ s.dbLog ↔ (alookup s.tax_cache k).isSome = true

theorem charStep_esiLog (cfg : CharacterPayoutTaxConfiguration) (env : TaxEnv)
    (db : List CorpTaxHistoryRow) (s : CharPayoutRunState) (d : CharPayoutRow)
    (h : d.entry_id ∉ s.trans_ids) :
    (CharacterPayoutTaxConfiguration.step cfg env db s d).esiLog = s.esiLog ++ [d.corp] := by
  unfold CharacterPayoutTaxConfiguration.step
  rw [if_neg h]
  dsimp only
  split <;> rfl

theorem corpStep_esiLog (cfg : CorpTaxPayoutTaxConfiguration) (env : TaxEnv)
    (db : List CorpTaxHistoryRow) (full : Bool) (s : CorpPayoutRunState) (w : CorpPayoutRow)
    (h : w.entry_id ∉ s.trans_ids) :
    (CorpTaxPayoutTaxConfiguration.step cfg env db full s w).esiLog =
      s.esiLog ++ [w.division_corporation_id] := by
  unfold CorpTaxPayoutTaxConfiguration.step
  rw [if_neg h]

theorem charStep_trans_ids (cfg : CharacterPayoutTaxConfiguration) (env : TaxEnv)
    (db : List CorpTaxHistoryRow) (s : CharPayoutRunState) (d : CharPayoutRow) :
    (CharacterPayoutTaxConfiguration.step cfg env db s d).trans_ids = s.trans_ids ∨
    (CharacterPayoutTaxConfiguration.step cfg env db s d).trans_ids =
      s.trans_ids ++ [d.entry_id] := by
  unfold CharacterPayoutTaxConfiguration.step
  by_cases h : d.entry_id ∈ s.trans_ids
  · rw [if_pos h]
    exact Or.inl rfl
  · rw [if_neg h]
    dsimp only
    split
    · exact Or.inl rfl
    · exact Or.inr rfl

theorem corpStep_trans_ids (cfg : CorpTaxPayoutTaxConfiguration) (env : TaxEnv)
    (db : List CorpTaxHistoryRow) (full : Bool) (s : CorpPayoutRunState) (w : CorpPayoutRow) :
    (CorpTaxPayoutTaxConfiguration.step cfg env db full s w).trans_ids = s.trans_ids ∨
    (CorpTaxPayoutTaxConfiguration.step cfg env db full s w).trans_ids =
      s.trans_ids ++ [w.entry_id] := by
  unfold CorpTaxPayoutTaxConfiguration.step
  by_cases h : w.entry_id ∈ s.trans_ids
  · rw [if_pos h]
    exact Or.inl rfl
  · rw [if_neg h]
    exact Or.inr rfl

theorem charStep_cacheInv (cfg : CharacterPayoutTaxConfiguration) (env : TaxEnv)
    (db : List CorpTaxHistoryRow) (s : CharPayoutRunState) (d : CharPayoutRow)
    (hinv : charCacheInv s) : charCacheInv (CharacterPayoutTaxConfiguration.step cfg env db s d) := by
  unfold CharacterPayoutTaxConfiguration.step
  by_cases h : d.entry_id ∈ s.trans_ids
  · rw [if_pos h]
    exact hinv
  · rw [if_neg h]
    dsimp only
    cases hc : alookup s.tax_cache d.corp with
    | some v =>
      have : ∀ s2 : CharPayoutRunState, s2.tax_cache = s.tax_cache → s2.dbLog = s.dbLog →
          charCacheInv s2 := by
        intro s2 h1 h2
        exact ⟨h2 ▸ hinv.1, fun k => by rw [h1, h2]; exact hinv.2 k⟩
      split <;> exact this _ (by simp [hc]) (by simp [hc])
    | none =>
      have hnotin : d.corp ∉ s.dbLog := by
        intro hk
        have := (hinv.2 d.corp).mp hk
        rw [hc] at this
        exact absurd this (by simp)
      have hinv2 : charCacheInv
          { s with tax_cache := aset s.tax_cache d.corp (get_corp_tax_list db d.corp),
                   dbLog := s.dbLog ++ [d.corp] } := by
        constructor
        · simp [List.nodup_append, hinv.1, hnotin]
        · intro k
          by_cases hk : k = d.corp
          · subst hk
            simp [alookup_aset_self]
          · have hne : d.corp ≠ k := fun he => hk he.symm
            simp [alookup_aset_ne _ _ _ _ hne, hk, (hinv.2 k)]
      have : ∀ s2 : CharPayoutRunState,
          s2.tax_cache = aset s.tax_cache d.corp (get_corp_tax_list db d.corp) →
          s2.dbLog = s.dbLog ++ [d.corp] → charCacheInv s2 := by
        intro s2 h1 h2
        exact ⟨h2 ▸ hinv2.1, fun k => by rw [h1, h2]; exact hinv2.2 k⟩
      split <;> exact this _ (by simp [hc]) (by simp [hc])

theorem corpStep_cacheInv (cfg : CorpTaxPayoutTaxConfiguration) (env : TaxEnv)
    (db : List CorpTaxHistoryRow) (full : Bool) (s : CorpPayoutRunState) (w : CorpPayoutRow)
    (hinv : corpCacheInv s) :
    corpCacheInv (CorpTaxPayoutTaxConfiguration.step cfg env db full s w) := by
  unfold CorpTaxPayoutTaxConfiguration.step
  by_cases h : w.entry_id ∈ s.trans_ids
  · rw [if_pos h]
    exact hinv
  · rw [if_neg h]
    dsimp only
    cases hc : alookup s.tax_cache w.division_corporation_id with
    | some v => exact ⟨hinv.1, hinv.2⟩
    | none =>
      have hnotin : w.division_corporation_id ∉ s.dbLog := by
        intro hk
        have := (hinv.2 w.division_corporation_id).mp hk
        rw [hc] at this
        exact absurd this (by simp)
      constructor
      · simp [List.nodup_append, hinv.1, hnotin]
      · intro k
        by_cases hk : k = w.division_corporation_id
        · subst hk
          simp [alookup_aset_self]
        · have hne : w.division_corporation_id ≠ k := fun he => hk he.symm
          simp [alookup_aset_ne _ _ _ _ hne, hk, (hinv.2 k)]

theorem charRun_cacheInv (cfg : CharacterPayoutTaxConfiguration) (env : TaxEnv)
    (db : List CorpTaxHistoryRow) :
    ∀ (data : List CharPayoutRow) (s : CharPayoutRunState), charCacheInv s →
      charCacheInv (data.foldl (CharacterPayoutTaxConfiguration.step cfg env db) s) := by
  intro data
  induction data with
  | nil => intro s hs; exact hs
  | cons d rest ih => intro s hs; exact ih _ (charStep_cacheInv cfg env db s d hs)

theorem corpRun_cacheInv (cfg : CorpTaxPayoutTaxConfiguration) (env : TaxEnv)
    (db : List CorpTaxHistoryRow) (full : Bool) :
    ∀ (data : List CorpPayoutRow) (s : CorpPayoutRunState), corpCacheInv s →
      corpCacheInv (data.foldl (CorpTaxPayoutTaxConfiguration.step cfg env db full) s) := by
  intro data
  induction data with
  | nil => intro s hs; exact hs
  | cons w rest ih => intro s hs; exact ih _ (corpStep_cacheInv cfg env db full s w hs)

theorem charRun_esiLog (cfg : CharacterPayoutTaxConfiguration) (env : TaxEnv)
    (db : List CorpTaxHistoryRow) :
    ∀ (data : List CharPayoutRow) (s : CharPayoutRunState),
      (data.map (fun d => d.entry_id)).Nodup →
      (∀ a ∈ data, a.entry_id ∉ s.trans_ids) →
      (data.foldl (CharacterPayoutTaxConfiguration.step cfg env db) s).esiLog =
        s.esiLog ++ data.map (fun d => d.corp) := by
  intro data
  induction data with
  | nil => intro s _ _; simp
  | cons d rest ih =>
    intro s hnd hnew
    have hdnew : d.entry_id ∉ s.trans_ids := hnew d (List.mem_cons_self d rest)
    have hrest : ∀ a ∈ rest, a.entry_id ∉
        (CharacterPayoutTaxConfiguration.step cfg env db s d).trans_ids := by
      intro a ha
      have hne : a.entry_id ≠ d.entry_id := by
        have hh := (List.nodup_cons.mp hnd).1
        intro he
        have hmem : a.entry_id ∈ rest.map (fun x => x.entry_id) :=
          List.mem_map_of_mem (fun x => x.entry_id) ha
        rw [he] at hmem
        exact hh hmem
      rcases charStep_trans_ids cfg env db s d with ht | ht <;> rw [ht]
      · exact hnew a (List.mem_cons_of_mem d ha)
      · simp [hnew a (List.mem_cons_of_mem d ha), hne]
    have hfold : (rest.foldl (CharacterPayoutTaxConfiguration.step cfg env db)
          (CharacterPayoutTaxConfiguration.step cfg env db s d)).esiLog =
        (CharacterPayoutTaxConfiguration.step cfg env db s d).esiLog ++
          rest.map (fun d => d.corp) :=
      ih _ (List.nodup_cons.mp hnd).2 hrest
    calc ((d :: rest).foldl (CharacterPayoutTaxConfiguration.step cfg env db) s).esiLog
        = (rest.foldl (CharacterPayoutTaxConfiguration.step cfg env db)
            (CharacterPayoutTaxConfiguration.step cfg env db s d)).esiLog := rfl
      _ = (CharacterPayoutTaxConfiguration.step cfg env db s d).esiLog ++
            rest.map (fun d => d.corp) := hfold
      _ = (s.esiLog ++ [d.corp]) ++ rest.map (fun d => d.corp) := by
            rw [charStep_esiLog cfg env db s d hdnew]
      _ = s.esiLog ++ (d :: rest).map (fun d => d.corp) := by simp

theorem corpRun_esiLog (cfg : CorpTaxPayoutTaxConfiguration) (env : TaxEnv)
    (db : List CorpTaxHistoryRow) (full : Bool) :
    ∀ (data : List CorpPayoutRow) (s : CorpPayoutRunState),
      (data.map (fun w => w.entry_id)).Nodup →
      (∀ a ∈ data, a.entry_id ∉ s.trans_ids) →
      (data.foldl (CorpTaxPayoutTaxConfiguration.step cfg env db full) s).esiLog =
        s.esiLog ++ data.map (fun w => w.division_corporation_id) := by
  intro data
  induction data with
  | nil => intro s _ _; simp
  | cons w rest ih =>
    intro s hnd hnew
    have hdnew : w.entry_id ∉ s.trans_ids := hnew w (List.mem_cons_self w rest)
    have hrest : ∀ a ∈ rest, a.entry_id ∉
        (CorpTaxPayoutTaxConfiguration.step cfg env db full s w).trans_ids := by
      intro a ha
      have hne : a.entry_id ≠ w.entry_id := by
        have hh := (List.nodup_cons.mp hnd).1
        intro he
        have hmem : a.entry_id ∈ rest.map (fun x => x.entry_id) :=
          List.mem_map_of_mem (fun x => x.entry_id) ha
        rw [he] at hmem
        exact hh hmem
      rcases corpStep_trans_ids cfg env db full s w with ht | ht <;> rw [ht]
      · exact hnew a (List.mem_cons_of_mem w ha)
      · simp [hnew a (List.mem_cons_of_mem w ha), hne]
    have hfold : (rest.foldl (CorpTaxPayoutTaxConfiguration.step cfg env db full)
          (CorpTaxPayoutTaxConfiguration.step cfg env db full s w)).esiLog =
        (CorpTaxPayoutTaxConfiguration.step cfg env db full s w).esiLog ++
          rest.map (fun w => w.division_corporation_id) :=
      ih _ (List.nodup_cons.mp hnd).2 hrest
    calc ((w :: rest).foldl (CorpTaxPayoutTaxConfiguration.step cfg env db full) s).esiLog
        = (rest.foldl (CorpTaxPayoutTaxConfiguration.step cfg env db full)
            (CorpTaxPayoutTaxConfiguration.step cfg env db full s w)).esiLog := rfl
      _ = (CorpTaxPayoutTaxConfiguration.step cfg env db full s w).esiLog ++
            rest.map (fun w => w.division_corporation_id) := hfold
      _ = (s.esiLog ++ [w.division_corporation_id]) ++
            rest.map (fun w => w.division_corporation_id) := by
            rw [corpStep_esiLog cfg env db full s w hdnew]
      _ = s.esiLog ++ (w :: rest).map (fun w => w.division_corporation_id) := by simp

/-- C9 (amended): within one aggregation run of either payout variant, the
rate-history DB fetch is memoized per corporation (the fetch log never
repeats a corporation), but the live ESI rate lookup is not: for any data
whose transactions are distinct, the lookup log is exactly one entry per
transaction (its corporation), not one per distinct corporation. -/
theorem c9_lookup_counts :
    (∀ (cfg : CharacterPayoutTaxConfiguration) (env : TaxEnv)
       (db : List CorpTaxHistoryRow) (data : List CharPayoutRow),
      (cfg.process_character_aggregates env db data).dbLog.Nodup ∧
      ((data.map (fun d => d.entry_id)).Nodup →
        (cfg.process_character_aggregates env db data).esiLog =
          data.map (fun d => d.corp))) ∧
    (∀ (cfg : CorpTaxPayoutTaxConfiguration) (env : TaxEnv)
       (db : List CorpTaxHistoryRow) (full : Bool) (data : List CorpPayoutRow),
      (cfg.process_aggregates env db full data).dbLog.Nodup ∧
      ((data.map (fun w => w.entry_id)).Nodup →
        (cfg.process_aggregates env db full data).esiLog =
          data.map (fun w => w.division_corporation_id))) := by
  have hinit : charCacheInv initCharPayoutRun := by
    constructor
    · exact List.nodup_nil
    · intro k
      simp [initCharPayoutRun, alookup]
  have hinitC : corpCacheInv initCorpPayoutRun := by
    constructor
    · exact List.nodup_nil
    · intro k
      simp [initCorpPayoutRun, alookup]
  constructor
  · intro cfg env db data
    constructor
    · exact (charRun_cacheInv cfg env db data initCharPayoutRun hinit).1
    · intro hnd
      have := charRun_esiLog cfg env db data initCharPayoutRun hnd (by
        intro a _
        simp [initCharPayoutRun])
      simpa [initCharPayoutRun, CharacterPayoutTaxConfiguration.process_character_aggregates]
        using this
  · intro cfg env db full data
    constructor
    · exact (corpRun_cacheInv cfg env db full data initCorpPayoutRun hinitC).1
    · intro hnd
      have := corpRun_esiLog cfg env db full data initCorpPayoutRun hnd (by
        intro a _
        simp [initCorpPayoutRun])
      simpa [initCorpPayoutRun, CorpTaxPayoutTaxConfiguration.process_aggregates]
        using this

/-- C9 witness: the amended count statement at the concrete two-transaction
run of corporation 7 — one ESI lookup per transaction. -/
theorem c9_lookup_counts_witness :
    (c4charCfg.process_character_aggregates esiTenPercent [] [c9rowA, c9rowB]).esiLog =
      [c9rowA, c9rowB].map (fun d => d.corp) :=
  (c9_lookup_counts.1 c4charCfg esiTenPercent [] [c9rowA, c9rowB]).2 (by decide)

end Accounting
